import Mathlib

/-!
Shallow embedding of `ortools/sat/cp_model_lns.cc` (LNS neighborhood generators)
and proofs about it.

Modelling conventions:
* Protobuf repeated fields become `List`s; a variable's `domain` is the raw list
  of interval bounds exactly as in `IntegerVariableProto.domain`.
* `double difficulty` is modelled as `ℚ`; `std::ceil` becomes `Int.ceil` (`⌈⌉`).
* `CHECK` failures and C++ undefined behaviour (out-of-range vector access,
  `uniform_int_distribution` over an empty range) are modelled by returning
  `none`; successful executions return `some`.
* Randomness (`random_engine_t` seeded per call, `std::shuffle`,
  `std::uniform_int_distribution`) is modelled by explicit oracle parameters:
  a shuffle oracle (assumed to produce a permutation in theorems that need it)
  and index-pick oracles (assumed to be in range).  Universally quantifying
  over valid oracles captures "for every seed".
-/

namespace CpModelLns

/-- `IntegerVariableProto`: only the `domain` field is touched by this file. -/
structure IntegerVariableProto where
  domain : List Int
deriving DecidableEq, Repr, Inhabited

/-- A constraint, abstracted to the list of variable indices
`UsedVariables(ct)` returns for it (the only part this file reads). -/
structure ConstraintProto where
  vars : List Nat
deriving DecidableEq, Repr, Inhabited

/-- One `DecisionStrategyProto` of `search_strategy`: its `variables()` list. -/
structure DecisionStrategyProto where
  variables_ : List Nat
deriving DecidableEq, Repr, Inhabited

/-- `PartialVariableAssignment` (the `solution_hint` field). -/
structure PartialVariableAssignment where
  vars : List Nat
  values : List Int
deriving DecidableEq, Repr, Inhabited

/-- `CpModelProto`, restricted to the fields `cp_model_lns.cc` reads/writes. -/
structure CpModelProto where
  variables_ : List IntegerVariableProto
  constraints : List ConstraintProto
  search_strategy : List DecisionStrategyProto
  solution_hint : Option PartialVariableAssignment
deriving DecidableEq, Repr, Inhabited

/-- `CpSolverResponse`, restricted to its `solution` field. -/
structure CpSolverResponse where
  solution : List Int
deriving DecidableEq, Repr, Inhabited

/-- One step of the fixing loop of `FixGivenPosition`: clear the domain of
`var` and add `response.solution(var)` twice (a single-point interval). -/
def fixOneVariable (response : CpSolverResponse) (m : CpModelProto) (var : Nat) :
    CpModelProto :=
  let pointDomain : IntegerVariableProto :=
    { domain := [response.solution.getD var 0, response.solution.getD var 0] }
  { m with variables_ := m.variables_.set var pointDomain }

/-- `FixGivenPosition` (cp_model_lns.cc:28-49).  `none` models the
`CHECK_EQ(response.solution_size(), model_proto.variables_size())` failure and
the protobuf abort on `mutable_variables(var)` with `var` out of range. -/
def FixGivenPosition (response : CpSolverResponse) (variables_to_fix : List Nat)
    (model_proto : CpModelProto) : Option CpModelProto :=
  if response.solution.length ≠ model_proto.variables_.length then none
  else if variables_to_fix.any (fun v => model_proto.variables_.length ≤ v) then none
  else
    let m1 := variables_to_fix.foldl (fixOneVariable response) model_proto
    let hint : PartialVariableAssignment :=
      { vars := List.range m1.variables_.length
        values :=
          (List.range m1.variables_.length).map
            (fun v => response.solution.getD v 0) }
    some { m1 with solution_hint := some hint }

/-- Append `x` to the `i`-th bucket of `l` (`l[i].push_back(x)`). -/
def pushAt (l : List (List Nat)) (i : Nat) (x : Nat) : List (List Nat) :=
  l.set i (l.getD i [] ++ [x])

/-- The constructor loop building `var_to_constraint_`: for each constraint
index `ctIndex` (in order), for each of its variables `var` (in order),
`var_to_constraint_[var].push_back(ct_index)`. -/
def buildVarToCt (ctIndex : Nat) : List ConstraintProto → List (List Nat) →
    List (List Nat)
  | [], acc => acc
  | c :: rest, acc =>
      buildVarToCt (ctIndex + 1) rest (c.vars.foldl (fun a v => pushAt a v ctIndex) acc)

/-- One step of the decision-variable collection loop: if `v` is not yet in the
membership mask, append it to the list and mark it. -/
def addDecisionVar (acc : List Nat × List Bool) (v : Nat) : List Nat × List Bool :=
  if acc.2.getD v false then acc else (acc.1 ++ [v], acc.2.set v true)

/-- The constructor loop building `decision_variables_` and
`decision_variables_set_` from the model's search strategies. -/
def buildDecisions (strategies : List DecisionStrategyProto) (n : Nat) :
    List Nat × List Bool :=
  strategies.foldl (fun acc s => s.variables_.foldl addDecisionVar acc)
    ([], List.replicate n false)

/-- The state a `NeighborhoodGenerator` holds after construction
(cp_model_lns.cc:54-84). -/
structure NeighborhoodGenerator where
  model_proto : CpModelProto
  focus_on_decision_variables : Bool
  var_to_constraint : List (List Nat)
  constraint_to_var : List (List Nat)
  decision_variables : List Nat
  decision_variables_set : List Bool
deriving DecidableEq, Repr, Inhabited

/-- The base-class constructor (cp_model_lns.cc:54-84).  `none` models the
`CHECK_GE`/`CHECK_LT` failure on a constraint variable out of
`[0, variables_size)` and the out-of-range write to `decision_variables_set_`
for a malformed search strategy.  `constraint_to_var_[ct]` receives exactly the
variables of constraint `ct` in order, so it is `constraints.map vars`; when no
search strategy exists `decision_variables_set_` is never read (focus is forced
off), so giving it length `n` in that case is observationally faithful. -/
def NeighborhoodGenerator.init (model : CpModelProto) (focus : Bool) :
    Option NeighborhoodGenerator :=
  let n := model.variables_.length
  if (model.constraints.all fun c => c.vars.all fun v => decide (v < n)) &&
     (model.search_strategy.all fun s => s.variables_.all fun v => decide (v < n)) then
    let dec := buildDecisions model.search_strategy n
    some
      { model_proto := model
        focus_on_decision_variables := if dec.1.isEmpty then false else focus
        var_to_constraint := buildVarToCt 0 model.constraints (List.replicate n [])
        constraint_to_var := model.constraints.map (fun c => c.vars)
        decision_variables := dec.1
        decision_variables_set := dec.2 }
  else none

/-- `NeighborhoodGenerator::IsActive` (cp_model_lns.cc:86-88). -/
def NeighborhoodGenerator.IsActive (g : NeighborhoodGenerator) (var : Nat) : Bool :=
  !g.focus_on_decision_variables || g.decision_variables_set.getD var false

/-- The `fixed_variables` list computed by `RelaxGivenVariables`
(cp_model_lns.cc:93-106): the active pool filtered to entries whose
`relaxed_variables` mask bit is false. -/
def fixedVariablesFor (g : NeighborhoodGenerator) (relaxed_variables : List Bool) :
    List Nat :=
  if g.focus_on_decision_variables then
    g.decision_variables.filter (fun i => !(relaxed_variables.getD i false))
  else
    (List.range g.model_proto.variables_.length).filter
      (fun i => !(relaxed_variables.getD i false))

/-- `NeighborhoodGenerator::RelaxGivenVariables` (cp_model_lns.cc:90-108). -/
def NeighborhoodGenerator.RelaxGivenVariables (g : NeighborhoodGenerator)
    (initial_solution : CpSolverResponse) (relaxed_variables : List Bool) :
    Option CpModelProto :=
  FixGivenPosition initial_solution (fixedVariablesFor g relaxed_variables)
    g.model_proto

/-- The indices the relaxed mask leaves free, as a list (spec §3's
"Neighborhood Selection": `relaxed[var] = true` means left free). -/
def relaxedIndices (g : NeighborhoodGenerator) (relaxed_variables : List Bool) :
    List Nat :=
  (List.range g.model_proto.variables_.length).filter
    (fun v => relaxed_variables.getD v false)

/-- The candidate pool of `SimpleNeighborhoodGenerator::Generate`
(cp_model_lns.cc:118-124): decision variables under focus, else `iota`. -/
def simplePool (g : NeighborhoodGenerator) : List Nat :=
  if g.focus_on_decision_variables then g.decision_variables
  else List.range g.model_proto.variables_.length

/-- The fixed-variable list of the Simple generator for a given (already
computed) target size: `fixed_variables.resize(target_size)` after the
shuffle.  `resize` to a larger size value-initializes with `0`. -/
def simpleFixedVariables (g : NeighborhoodGenerator)
    (shuffle : List Nat → List Nat) (target_size : Nat) : List Nat :=
  let shuffled := shuffle (simplePool g)
  shuffled.take target_size ++ List.replicate (target_size - shuffled.length) 0

/-- Core of `SimpleNeighborhoodGenerator::Generate` after the target size has
been computed.  A negative `target_size` passed to `resize` is C++ undefined
behaviour (conversion to a huge `size_t`), modelled as `none`. -/
def simpleGenerateT (g : NeighborhoodGenerator) (initial_solution : CpSolverResponse)
    (shuffle : List Nat → List Nat) (target_size : ℤ) : Option CpModelProto :=
  if target_size < 0 then none
  else FixGivenPosition initial_solution
    (simpleFixedVariables g shuffle target_size.toNat) g.model_proto

/-- `SimpleNeighborhoodGenerator::Generate` (cp_model_lns.cc:110-131).  The
`shuffle` oracle stands for `std::shuffle` with the engine seeded from `seed`;
`target_size = ceil((1.0 - difficulty) * fixed_variables.size())`. -/
def SimpleGenerate (g : NeighborhoodGenerator) (initial_solution : CpSolverResponse)
    (shuffle : List Nat → List Nat) (difficulty : ℚ) : Option CpModelProto :=
  simpleGenerateT g initial_solution shuffle
    ⌈(1 - difficulty) * ((shuffle (simplePool g)).length : ℚ)⌉

/-- `num_active_vars` as computed at the top of the graph generators
(cp_model_lns.cc:136-138, 200-202). -/
def numActiveVars (g : NeighborhoodGenerator) : Nat :=
  if g.focus_on_decision_variables then g.decision_variables.length
  else g.model_proto.variables_.length

end CpModelLns

namespace CpModelLns

/-- Walk state of `VariableGraphNeighborhoodGenerator::Generate`:
`used_variables`, `visited_variables`, `relaxed_variables`. -/
structure VarWalk where
  used : List Bool
  visited : List Nat
  relaxed : List Nat
deriving DecidableEq, Repr, Inhabited

/-- The collection loop (cp_model_lns.cc:165-175): gather every not-yet-used
variable sharing a constraint with `v`, marking it used and counting how many
of the new ones are active.  Returns (new used mask, `random_variables`,
`num_active_vars` of the batch). -/
def collectVar (g : NeighborhoodGenerator) (acc : List Bool × List Nat × Nat)
    (var : Nat) : List Bool × List Nat × Nat :=
  if acc.1.getD var false then acc
  else (acc.1.set var true, acc.2.1 ++ [var],
        if g.IsActive var then acc.2.2 + 1 else acc.2.2)

/-- Inner constraint pass of the collection loop. -/
def collectCt (g : NeighborhoodGenerator) (acc : List Bool × List Nat × Nat)
    (ct : Nat) : List Bool × List Nat × Nat :=
  (g.constraint_to_var.getD ct []).foldl (collectVar g) acc

def collectNeighbors (g : NeighborhoodGenerator) (v : Nat) (used : List Bool) :
    List Bool × List Nat × Nat :=
  (g.var_to_constraint.getD v []).foldl (collectCt g) (used, [], 0)

/-- The append loop (cp_model_lns.cc:180-186): push each batch member onto
`visited_variables`, onto `relaxed_variables` when active, and break as soon
as `relaxed_variables.size() >= target_size` (checked after the push). -/
def appendVars (g : NeighborhoodGenerator) (target_size : Nat) :
    List Nat → List Nat → List Nat → List Nat × List Nat
  | [], visited, relaxed => (visited, relaxed)
  | to_add :: rest, visited, relaxed =>
      let visited' := visited ++ [to_add]
      let relaxed' := if g.IsActive to_add then relaxed ++ [to_add] else relaxed
      if target_size ≤ relaxed'.length then (visited', relaxed')
      else appendVars g target_size rest visited' relaxed'

/-- One iteration of the outer loop (cp_model_lns.cc:161-188) processing
`visited_variables[i]`.  The batch is shuffled only when
`num_active_vars + relaxed_variables.size() >= target_size`. -/
def varGraphStep (g : NeighborhoodGenerator) (target_size : Nat)
    (shuf : List Nat → List Nat) (w : VarWalk) (i : Nat) : VarWalk :=
  let c := collectNeighbors g (w.visited.getD i 0) w.used
  let batch := if target_size ≤ c.2.2 + w.relaxed.length then shuf c.2.1 else c.2.1
  let vr := appendVars g target_size batch w.visited w.relaxed
  { used := c.1, visited := vr.1, relaxed := vr.2 }

/-- The outer loop of the variable-graph walk, `i` ranging over the growing
`visited_variables`.  Each iteration handles one index, so the loop runs at
most `visited_variables.size() <= num_model_vars` times (visited entries are
distinct in-range variables); `fuel = num_model_vars` therefore never runs
out, and exhaustion returns the current state. -/
def varGraphLoop (g : NeighborhoodGenerator) (target_size : Nat)
    (shuf : Nat → List Nat → List Nat) : Nat → Nat → VarWalk → VarWalk
  | 0, _, w => w
  | fuel + 1, i, w =>
      if w.visited.length ≤ i then w
      else
        let w' := varGraphStep g target_size (shuf i) w i
        if target_size ≤ w'.relaxed.length then w'
        else varGraphLoop g target_size shuf fuel (i + 1) w'

/-- The complete walk of `VariableGraphNeighborhoodGenerator::Generate`
(cp_model_lns.cc:147-188): pick the first variable (through
`decision_variables_` under focus), mark and relax it, then expand.
`firstChoice` stands for the draw of `uniform_int_distribution<int>
(0, num_active_vars - 1)`. -/
def varGraphFirst (g : NeighborhoodGenerator) (firstChoice : Nat) : Nat :=
  if g.focus_on_decision_variables then g.decision_variables.getD firstChoice 0
  else firstChoice

def varGraphSelection (g : NeighborhoodGenerator) (firstChoice : Nat)
    (shuf : Nat → List Nat → List Nat) (target_size : Nat) : VarWalk :=
  let n := g.model_proto.variables_.length
  let first_var := varGraphFirst g firstChoice
  varGraphLoop g target_size shuf n 0
    { used := (List.replicate n false).set first_var true
      visited := [first_var]
      relaxed := [first_var] }

/-- The `used_variables` mask rebuilt from `relaxed_variables` at
cp_model_lns.cc:192-193, handed to `RelaxGivenVariables`. -/
def relaxedMask (n : Nat) (relaxed : List Nat) : List Bool :=
  relaxed.foldl (fun m v => m.set v true) (List.replicate n false)

/-- Core of `VariableGraphNeighborhoodGenerator::Generate` once `target_size`
is computed: the early return when `target_size == num_active_vars`, the
`CHECK_GT(target_size, 0)` (modelled as `none`), the walk, and the final
`RelaxGivenVariables`. -/
def varGraphGenerateT (g : NeighborhoodGenerator)
    (initial_solution : CpSolverResponse) (firstChoice : Nat)
    (shuf : Nat → List Nat → List Nat) (target_size : ℤ) : Option CpModelProto :=
  if target_size = (numActiveVars g : ℤ) then some g.model_proto
  else if target_size ≤ 0 then none
  else
    let w := varGraphSelection g firstChoice shuf target_size.toNat
    g.RelaxGivenVariables initial_solution
      (relaxedMask g.model_proto.variables_.length w.relaxed)

/-- `VariableGraphNeighborhoodGenerator::Generate` (cp_model_lns.cc:133-195),
with `target_size = ceil(difficulty * num_active_vars)`. -/
def VarGraphGenerate (g : NeighborhoodGenerator)
    (initial_solution : CpSolverResponse) (firstChoice : Nat)
    (shuf : Nat → List Nat → List Nat) (difficulty : ℚ) : Option CpModelProto :=
  varGraphGenerateT g initial_solution firstChoice shuf
    ⌈difficulty * (numActiveVars g : ℚ)⌉

/-- Walk state of `ConstraintGraphNeighborhoodGenerator::Generate`:
`visited_variables`, `added_constraints`, `next_constraints`,
`num_relaxed_variables`. -/
structure CtWalk where
  visited : List Bool
  added : List Bool
  next_constraints : List Nat
  num_relaxed : Nat
deriving DecidableEq, Repr, Inhabited

/-- The enqueue loop (cp_model_lns.cc:248-252): queue every constraint of
`var` not yet added, marking it added. -/
def enqueueCt (p : List Bool × List Nat) (ct : Nat) : List Bool × List Nat :=
  if p.1.getD ct false then p else (p.1.set ct true, p.2 ++ [ct])

def enqueueConstraints (g : NeighborhoodGenerator) (var : Nat)
    (added : List Bool) (next : List Nat) : List Bool × List Nat :=
  (g.var_to_constraint.getD var []).foldl enqueueCt (added, next)

/-- The inner variable loop (cp_model_lns.cc:242-253): for each variable of
the chosen constraint (in shuffled order), skip it if visited, else mark it
visited, count it if active, break when the count reaches `target_size`
(before enqueueing that variable's constraints), else enqueue its
constraints. -/
def ctGraphInner (g : NeighborhoodGenerator) (target_size : Nat) :
    List Nat → CtWalk → CtWalk
  | [], w => w
  | var :: rest, w =>
      if w.visited.getD var false then ctGraphInner g target_size rest w
      else
        let visited' := w.visited.set var true
        let nr := if g.IsActive var then w.num_relaxed + 1 else w.num_relaxed
        if nr = target_size then
          { w with visited := visited', num_relaxed := nr }
        else
          let p := enqueueConstraints g var w.added w.next_constraints
          ctGraphInner g target_size rest
            { visited := visited', added := p.1, next_constraints := p.2,
              num_relaxed := nr }

/-- `std::swap(next[i], next.back()); next.pop_back()`: remove position `i`
by moving the last element into it. -/
def removeSwap (l : List Nat) (i : Nat) : List Nat :=
  (l.set i (l.getD (l.length - 1) 0)).dropLast

/-- The outer while loop (cp_model_lns.cc:225-254).  Each iteration pops one
queue entry and every constraint enters the queue at most once (the `added`
mask), so the loop runs at most `constraints_size` times; with
`fuel = constraints_size + 1` exhaustion never happens and returns the state.
`pick step size` stands for `uniform_int_distribution<int>(0, size - 1)`;
`shuf` for `std::shuffle` of the constraint's variables.  `none` models the
`CHECK_LT(contraint_index, constraint_to_var_.size())` failure. -/
def ctGraphLoop (g : NeighborhoodGenerator) (target_size : Nat)
    (pick : Nat → Nat → Nat) (shuf : Nat → List Nat → List Nat) :
    Nat → Nat → CtWalk → Option CtWalk
  | 0, _, w => some w
  | fuel + 1, step, w =>
      if target_size ≤ w.num_relaxed then some w
      else if w.next_constraints.isEmpty then some w
      else
        let i := pick step w.next_constraints.length
        let contraint_index := w.next_constraints.getD i 0
        let next' := removeSwap w.next_constraints i
        if g.constraint_to_var.length ≤ contraint_index then none
        else
          let batch := shuf step (g.constraint_to_var.getD contraint_index [])
          let w' := ctGraphInner g target_size batch
            { w with next_constraints := next' }
          ctGraphLoop g target_size pick shuf fuel (step + 1) w'

/-- Core of `ConstraintGraphNeighborhoodGenerator::Generate` once
`target_size` is computed: early return on `target_size == num_active_vars`,
`CHECK_GT(target_size, 0)` as `none`, then the start-constraint draw
(`uniform_int_distribution<int>(0, constraint_to_var_.size() - 1)`, undefined
behaviour on an empty constraint list, modelled as `none`), the walk, and
`RelaxGivenVariables` on the visited mask. -/
def ctGraphStart (g : NeighborhoodGenerator) (startChoice : Nat) : CtWalk :=
  { visited := List.replicate g.model_proto.variables_.length false
    added := (List.replicate g.constraint_to_var.length false).set startChoice true
    next_constraints := [startChoice]
    num_relaxed := 0 }

/-- The whole constraint-graph walk: the loop run from the start state, with
fuel `constraints_size + 1` (one more than the loop can ever use). -/
def ctGraphSelection (g : NeighborhoodGenerator) (startChoice : Nat)
    (pick : Nat → Nat → Nat) (shuf : Nat → List Nat → List Nat)
    (target_size : Nat) : Option CtWalk :=
  ctGraphLoop g target_size pick shuf (g.constraint_to_var.length + 1) 0
    (ctGraphStart g startChoice)

def ctGraphGenerateT (g : NeighborhoodGenerator)
    (initial_solution : CpSolverResponse) (startChoice : Nat)
    (pick : Nat → Nat → Nat) (shuf : Nat → List Nat → List Nat)
    (target_size : ℤ) : Option CpModelProto :=
  if target_size = (numActiveVars g : ℤ) then some g.model_proto
  else if target_size ≤ 0 then none
  else if g.constraint_to_var.isEmpty then none
  else
    match ctGraphSelection g startChoice pick shuf target_size.toNat with
    | none => none
    | some w => g.RelaxGivenVariables initial_solution w.visited

/-- `ConstraintGraphNeighborhoodGenerator::Generate` (cp_model_lns.cc:197-256),
with `target_size = ceil(difficulty * num_active_vars)`. -/
def CtGraphGenerate (g : NeighborhoodGenerator)
    (initial_solution : CpSolverResponse) (startChoice : Nat)
    (pick : Nat → Nat → Nat) (shuf : Nat → List Nat → List Nat)
    (difficulty : ℚ) : Option CpModelProto :=
  ctGraphGenerateT g initial_solution startChoice pick shuf
    ⌈difficulty * (numActiveVars g : ℚ)⌉

end CpModelLns

namespace CpModelLns

/-- Modelled from the spec: `random_engine_t` (`ortools/util/random_engine.h`)
is not under `src/`.  Per spec §5, each `Generate` call owns an engine whose
whole state derives from the `seed` argument alone; we model the engine as a
64-bit linear congruential state sequence. -/
def engineStep (s : Nat) : Nat :=
  (s * 6364136223846793005 + 1442695040888963407) % 2 ^ 64

/-- The engine's `i`-th output after seeding with `seed`. -/
def engineAt (seed i : Nat) : Nat :=
  engineStep^[i + 1] (seed % 2 ^ 64)

/-- Modelled from the spec: a deterministic stand-in for `std::shuffle` driven
by the seeded engine — a rotation by an engine-derived amount (a permutation
of its input, which is all any theorem here relies on). -/
def seededShuffle (seed i : Nat) (l : List Nat) : List Nat :=
  l.rotate (engineAt seed i % (l.length + 1))

/-- Modelled from the spec: a deterministic stand-in for
`std::uniform_int_distribution<int>(0, k - 1)` driven by the seeded engine. -/
def seededPick (seed i k : Nat) : Nat :=
  engineAt seed i % k

/-- `SimpleNeighborhoodGenerator::Generate` with the engine seeded from
`seed` (cp_model_lns.cc:113-114): a function of `(incumbent, seed,
difficulty)` only. -/
def SimpleGenerateSeeded (g : NeighborhoodGenerator)
    (initial_solution : CpSolverResponse) (seed : Nat) (difficulty : ℚ) :
    Option CpModelProto :=
  SimpleGenerate g initial_solution (seededShuffle seed 0) difficulty

/-- `VariableGraphNeighborhoodGenerator::Generate` with the engine seeded from
`seed` (cp_model_lns.cc:144-145). -/
def VarGraphGenerateSeeded (g : NeighborhoodGenerator)
    (initial_solution : CpSolverResponse) (seed : Nat) (difficulty : ℚ) :
    Option CpModelProto :=
  VarGraphGenerate g initial_solution (seededPick seed 0 (numActiveVars g))
    (fun i => seededShuffle seed (i + 1)) difficulty

/-- `ConstraintGraphNeighborhoodGenerator::Generate` with the engine seeded
from `seed` (cp_model_lns.cc:208-209). -/
def CtGraphGenerateSeeded (g : NeighborhoodGenerator)
    (initial_solution : CpSolverResponse) (seed : Nat) (difficulty : ℚ) :
    Option CpModelProto :=
  CtGraphGenerate g initial_solution
    (seededPick seed 0 g.constraint_to_var.length)
    (fun i k => seededPick seed (2 * i + 1) k)
    (fun i l => seededShuffle seed (2 * i + 2) l) difficulty

/-- Two sequential calls of each seeded generator and of `FixGivenPosition`
on the same arguments: nothing is shared between the calls (each re-seeds its
own engine), so the pair components must coincide. -/
def generateTwice (g : NeighborhoodGenerator) (initial_solution : CpSolverResponse)
    (seed : Nat) (difficulty : ℚ) :
    (Option CpModelProto × Option CpModelProto) ×
    (Option CpModelProto × Option CpModelProto) ×
    (Option CpModelProto × Option CpModelProto) :=
  ((SimpleGenerateSeeded g initial_solution seed difficulty,
    SimpleGenerateSeeded g initial_solution seed difficulty),
   (VarGraphGenerateSeeded g initial_solution seed difficulty,
    VarGraphGenerateSeeded g initial_solution seed difficulty),
   (CtGraphGenerateSeeded g initial_solution seed difficulty,
    CtGraphGenerateSeeded g initial_solution seed difficulty))

/-- Variables reachable from `start` in the variable graph: repeatedly move
from a variable to any variable sharing one of its constraints (the traversal
of cp_model_lns.cc:165-175). -/
inductive VarConnected (g : NeighborhoodGenerator) (start : Nat) : Nat → Prop
  | refl : VarConnected g start start
  | step (v ct w : Nat) : VarConnected g start v →
      ct ∈ g.var_to_constraint.getD v [] →
      w ∈ g.constraint_to_var.getD ct [] → VarConnected g start w

/-- Constraints reachable from the start constraint in the constraint graph:
repeatedly move from a constraint to any constraint sharing one of its
variables (the traversal of cp_model_lns.cc:242-252). -/
inductive CtConnected (g : NeighborhoodGenerator) (start : Nat) : Nat → Prop
  | refl : CtConnected g start start
  | step (c v c' : Nat) : CtConnected g start c →
      v ∈ g.constraint_to_var.getD c [] →
      c' ∈ g.var_to_constraint.getD v [] → CtConnected g start c'

/-- A variable reachable by the constraint-graph traversal: it belongs to a
reachable constraint. -/
def CtReachesVar (g : NeighborhoodGenerator) (start v : Nat) : Prop :=
  ∃ c, CtConnected g start c ∧ v ∈ g.constraint_to_var.getD c []

end CpModelLns

namespace CpModelLns

/-- The set of visited active variables — the variables "relaxed" by the
constraint-graph walk (counted by `num_relaxed_variables`). -/
def activeVisited (g : NeighborhoodGenerator) (visited : List Bool) : Finset ℕ :=
  (Finset.range g.model_proto.variables_.length).filter
    (fun v => visited.getD v false = true ∧ g.IsActive v = true)

/-- Invariant of the constraint-graph walk: every queued constraint is in
range and reachable from the start constraint, every visited variable is
reachable, the visited mask keeps its length, `num_relaxed_variables` counts
exactly the visited active variables, and it never exceeds the target. -/
def CtInv (g : NeighborhoodGenerator) (start t : Nat) (w : CtWalk) : Prop :=
  (∀ ct ∈ w.next_constraints,
      ct < g.constraint_to_var.length ∧ CtConnected g start ct) ∧
  (∀ v, w.visited.getD v false = true → CtReachesVar g start v) ∧
  w.visited.length = g.model_proto.variables_.length ∧
  (activeVisited g w.visited).card = w.num_relaxed ∧
  w.num_relaxed ≤ t

/-- Invariant of the decision-variable collection: mask length `n`, list
without duplicates, mask ↔ membership, entries below `n`. -/
def DecInv (n : Nat) (p : List Nat × List Bool) : Prop :=
  p.2.length = n ∧ p.1.Nodup ∧ (∀ v, p.2.getD v false = true ↔ v ∈ p.1) ∧
    ∀ v ∈ p.1, v < n

/-- Example model: three variables, one constraint `{0, 1}`, decision
variables `{0, 1}` declared by the search strategy. -/
def exModelFocus : CpModelProto :=
  { variables_ := [⟨[0, 5]⟩, ⟨[0, 5]⟩, ⟨[0, 5]⟩]
    constraints := [⟨[0, 1]⟩]
    search_strategy := [⟨[0, 1]⟩]
    solution_hint := none }

/-- The generator `init exModelFocus true` builds. -/
def exGenFocus : NeighborhoodGenerator :=
  { model_proto := exModelFocus
    focus_on_decision_variables := true
    var_to_constraint := [[0], [0], []]
    constraint_to_var := [[0, 1]]
    decision_variables := [0, 1]
    decision_variables_set := [true, true, false] }

/-- Example model: two variables joined by one constraint, no strategy. -/
def exModelPair : CpModelProto :=
  { variables_ := [⟨[0, 5]⟩, ⟨[0, 5]⟩]
    constraints := [⟨[0, 1]⟩]
    search_strategy := []
    solution_hint := none }

/-- The generator `init exModelPair false` builds. -/
def exGenPair : NeighborhoodGenerator :=
  { model_proto := exModelPair
    focus_on_decision_variables := false
    var_to_constraint := [[0], [0]]
    constraint_to_var := [[0, 1]]
    decision_variables := []
    decision_variables_set := [false, false] }

/-- Example model: one variable, no constraints. -/
def exModelSingle : CpModelProto :=
  { variables_ := [⟨[0, 5]⟩]
    constraints := []
    search_strategy := []
    solution_hint := none }

/-- The generator `init exModelSingle false` builds. -/
def exGenSingle : NeighborhoodGenerator :=
  { model_proto := exModelSingle
    focus_on_decision_variables := false
    var_to_constraint := [[]]
    constraint_to_var := []
    decision_variables := []
    decision_variables_set := [false] }

/-- Example model: two variables and no constraints at all. -/
def exModelTwoFree : CpModelProto :=
  { variables_ := [⟨[0, 5]⟩, ⟨[0, 5]⟩]
    constraints := []
    search_strategy := []
    solution_hint := none }

/-- The generator `init exModelTwoFree false` builds. -/
def exGenTwoFree : NeighborhoodGenerator :=
  { model_proto := exModelTwoFree
    focus_on_decision_variables := false
    var_to_constraint := [[], []]
    constraint_to_var := []
    decision_variables := []
    decision_variables_set := [false, false] }

/-- Two sequential `FixGivenPosition` calls on the same arguments. -/
def fixTwice (r : CpSolverResponse) (toFix : List Nat) (m : CpModelProto) :
    Option CpModelProto × Option CpModelProto :=
  (FixGivenPosition r toFix m, FixGivenPosition r toFix m)

/-- The spec §8 scenario model: five variables (domains `a`–`e`), constraints
`c0 = {0,1}`, `c1 = {1,2}`, `c2 = {3,4}`, no search strategy. -/
def exModelC7 (a b c d e : IntegerVariableProto) : CpModelProto :=
  { variables_ := [a, b, c, d, e]
    constraints := [⟨[0, 1]⟩, ⟨[1, 2]⟩, ⟨[3, 4]⟩]
    search_strategy := []
    solution_hint := none }

/-- The generator `init (exModelC7 a b c d e) false` builds. -/
def exGenC7 (a b c d e : IntegerVariableProto) : NeighborhoodGenerator :=
  { model_proto := exModelC7 a b c d e
    focus_on_decision_variables := false
    var_to_constraint := [[0], [0, 1], [1], [2], [2]]
    constraint_to_var := [[0, 1], [1, 2], [3, 4]]
    decision_variables := []
    decision_variables_set := [false, false, false, false, false] }

/-- The restricted model the spec §8 scenario expects: variables `2, 3, 4`
fixed to `3, 4, 5` by single-point domains, hint `[0..4] ↦ [1,2,3,4,5]`. -/
def exOutC7 (a b : IntegerVariableProto) : CpModelProto :=
  { variables_ := [a, b, ⟨[3, 3]⟩, ⟨[4, 4]⟩, ⟨[5, 5]⟩]
    constraints := [⟨[0, 1]⟩, ⟨[1, 2]⟩, ⟨[3, 4]⟩]
    search_strategy := []
    solution_hint := some ⟨[0, 1, 2, 3, 4], [1, 2, 3, 4, 5]⟩ }

end CpModelLns

namespace CpModelLns

lemma getD_set_self {α : Type} (l : List α) (i : Nat) (a d : α) (h : i < l.length) :
    (l.set i a).getD i d = a := by
  rw [List.getD_eq_getElem?_getD]
  simp [List.getElem?_set_self, h]

lemma getD_set_ne {α : Type} (l : List α) (i j : Nat) (a d : α) (h : i ≠ j) :
    (l.set i a).getD j d = l.getD j d := by
  rw [List.getD_eq_getElem?_getD, List.getElem?_set_ne h, ← List.getD_eq_getElem?_getD]

lemma getD_of_length_le {α : Type} (l : List α) (i : Nat) (d : α) (h : l.length ≤ i) :
    l.getD i d = d := by
  rw [List.getD_eq_getElem?_getD, List.getElem?_eq_none h]
  rfl

lemma getD_mem_of_lt {α : Type} (l : List α) (i : Nat) (d : α) (h : i < l.length) :
    l.getD i d ∈ l := by
  rw [List.getD_eq_getElem _ _ h]
  exact List.getElem_mem h

lemma getD_range (n v : Nat) (h : v < n) : (List.range n).getD v 0 = v := by
  rw [List.getD_eq_getElem?_getD]
  simp [List.getElem?_range h]

/-- The variable list of the fixing fold of `FixGivenPosition`, characterised
pointwise: positions in `variables_to_fix` carry the single-point domain,
positions outside it are untouched. -/
lemma fixFold_getD (response : CpSolverResponse) (l : List Nat) (m : CpModelProto)
    (v : Nat) :
    (l.foldl (fixOneVariable response) m).variables_.getD v default =
      if v ∈ l ∧ v < m.variables_.length then
        { domain := [response.solution.getD v 0, response.solution.getD v 0] }
      else m.variables_.getD v default := by
  induction l generalizing m with
  | nil => simp
  | cons a rest ih =>
      rw [List.foldl_cons, ih]
      by_cases hv : v ∈ rest
      · have hlen : (fixOneVariable response m a).variables_.length =
            m.variables_.length := by
          simp [fixOneVariable]
        by_cases hlt : v < m.variables_.length
        · simp [hv, hlt, hlen]
        · simp only [hlen, hlt, and_false, if_false]
          simp only [fixOneVariable]
          rw [getD_of_length_le _ _ _ (by simpa [hlen] using Nat.le_of_not_lt hlt),
            getD_of_length_le _ _ _ (Nat.le_of_not_lt hlt)]
      · by_cases hva : v = a
        · subst hva
          by_cases hlt : v < m.variables_.length
          · simp only [fixOneVariable, List.length_set, hv, false_and, if_false,
              List.mem_cons, true_or, hlt, and_true, if_true]
            exact getD_set_self _ _ _ _ hlt
          · simp only [fixOneVariable, List.length_set, hv, false_and, if_false,
              List.mem_cons, true_or, hlt, and_true, if_true, and_false]
            rw [getD_of_length_le _ _ _ (Nat.le_of_not_lt hlt),
              getD_of_length_le _ _ _ (by simpa using Nat.le_of_not_lt hlt)]
        · have : ¬ v ∈ a :: rest := by simp [hva, hv]
          simp only [fixOneVariable, List.length_set, hv, false_and, if_false, this]
          exact getD_set_ne _ _ _ _ _ (fun h => hva h.symm)

lemma fixFold_length (response : CpSolverResponse) (l : List Nat) (m : CpModelProto) :
    (l.foldl (fixOneVariable response) m).variables_.length = m.variables_.length := by
  induction l generalizing m with
  | nil => rfl
  | cons a rest ih => rw [List.foldl_cons, ih]; simp [fixOneVariable]

lemma fixFold_constraints (response : CpSolverResponse) (l : List Nat)
    (m : CpModelProto) :
    (l.foldl (fixOneVariable response) m).constraints = m.constraints := by
  induction l generalizing m with
  | nil => rfl
  | cons a rest ih => rw [List.foldl_cons, ih]; rfl

lemma fixFold_search (response : CpSolverResponse) (l : List Nat) (m : CpModelProto) :
    (l.foldl (fixOneVariable response) m).search_strategy = m.search_strategy := by
  induction l generalizing m with
  | nil => rfl
  | cons a rest ih => rw [List.foldl_cons, ih]; rfl

/-- `FixGivenPosition` succeeds exactly on well-formed input, and its result
is fully characterised. -/
lemma FixGivenPosition_eq_some (response : CpSolverResponse) (l : List Nat)
    (m : CpModelProto) (hlen : response.solution.length = m.variables_.length)
    (hfix : ∀ v ∈ l, v < m.variables_.length) :
    FixGivenPosition response l m = some
      { variables_ := (l.foldl (fixOneVariable response) m).variables_
        constraints := m.constraints
        search_strategy := m.search_strategy
        solution_hint := some
          { vars := List.range m.variables_.length
            values := (List.range m.variables_.length).map
              (fun v => response.solution.getD v 0) } } := by
  have hany : l.any (fun v => decide (m.variables_.length ≤ v)) = false := by
    rw [List.any_eq_false]
    intro v hv
    simpa using Nat.not_le_of_lt (hfix v hv)
  rw [FixGivenPosition]
  rw [if_neg (by simp [hlen])]
  rw [if_neg (by simp [hany])]
  dsimp only
  rw [fixFold_length, fixFold_constraints, fixFold_search]

end CpModelLns

namespace CpModelLns

lemma addDecisionVar_inv (n : Nat) (p : List Nat × List Bool) (v : Nat)
    (hv : v < n) (h : DecInv n p) : DecInv n (addDecisionVar p v) := by
  obtain ⟨hlen, hnd, hiff, hbd⟩ := h
  rw [addDecisionVar]
  by_cases hm : p.2.getD v false = true
  · rw [if_pos hm]; exact ⟨hlen, hnd, hiff, hbd⟩
  · rw [if_neg hm]
    have hvnot : v ∉ p.1 := fun hvm => hm ((hiff v).mpr hvm)
    refine ⟨by simpa using hlen, ?_, ?_, ?_⟩
    · simpa [List.nodup_append] using ⟨hnd, hvnot⟩
    · intro x
      by_cases hx : x = v
      · subst hx
        rw [getD_set_self _ _ _ _ (hlen ▸ hv)]
        simp
      · rw [getD_set_ne _ _ _ _ _ (fun he => hx he.symm)]
        rw [hiff x]
        simp [hx]
    · intro x hx
      rcases List.mem_append.mp hx with h1 | h1
      · exact hbd x h1
      · simp at h1; subst h1; exact hv

lemma foldl_addDecisionVar_inv (n : Nat) (vs : List Nat)
    (hvs : ∀ v ∈ vs, v < n) (p : List Nat × List Bool) (h : DecInv n p) :
    DecInv n (vs.foldl addDecisionVar p) := by
  induction vs generalizing p with
  | nil => exact h
  | cons a rest ih =>
      rw [List.foldl_cons]
      exact ih (fun v hv => hvs v (List.mem_cons_of_mem _ hv))
        _ (addDecisionVar_inv n p a (hvs a (List.mem_cons_self _ _)) h)

lemma foldl_strategies_inv (n : Nat) (S : List DecisionStrategyProto)
    (hS : ∀ s ∈ S, ∀ v ∈ s.variables_, v < n) (p : List Nat × List Bool)
    (h : DecInv n p) :
    DecInv n (S.foldl (fun acc s => s.variables_.foldl addDecisionVar acc) p) := by
  induction S generalizing p with
  | nil => exact h
  | cons s rest ih =>
      rw [List.foldl_cons]
      exact ih (fun t ht => hS t (List.mem_cons_of_mem _ ht)) _
        (foldl_addDecisionVar_inv n s.variables_
          (hS s (List.mem_cons_self _ _)) p h)

lemma replicate_false_getD (n v : Nat) :
    (List.replicate n false).getD v false = false := by
  by_cases h : v < n
  · rw [List.getD_eq_getElem?_getD]
    simp [List.getElem?_replicate, h]
  · rw [getD_of_length_le _ _ _ (by simpa using Nat.le_of_not_lt h)]

lemma buildDecisions_inv (S : List DecisionStrategyProto) (n : Nat)
    (hS : ∀ s ∈ S, ∀ v ∈ s.variables_, v < n) :
    DecInv n (buildDecisions S n) := by
  rw [buildDecisions]
  refine foldl_strategies_inv n S hS _ ⟨by simp, List.nodup_nil, ?_, by simp⟩
  intro v
  rw [replicate_false_getD]
  simp

end CpModelLns

namespace CpModelLns

lemma pushAt_bound (acc : List (List Nat)) (i x b : Nat) (hx : x < b)
    (h : ∀ l ∈ acc, ∀ y ∈ l, y < b) :
    ∀ l ∈ pushAt acc i x, ∀ y ∈ l, y < b := by
  intro l hl y hy
  rcases List.mem_or_eq_of_mem_set hl with h1 | h1
  · exact h l h1 y hy
  · subst h1
    rcases List.mem_append.mp hy with h2 | h2
    · by_cases hi : i < acc.length
      · exact h _ (getD_mem_of_lt _ _ _ hi) y h2
      · rw [getD_of_length_le _ _ _ (Nat.le_of_not_lt hi)] at h2
        simp at h2
    · simp at h2; subst h2; exact hx

lemma foldl_pushAt_bound (vs : List Nat) (ci b : Nat) (hci : ci < b)
    (acc : List (List Nat)) (h : ∀ l ∈ acc, ∀ y ∈ l, y < b) :
    ∀ l ∈ vs.foldl (fun a v => pushAt a v ci) acc, ∀ y ∈ l, y < b := by
  induction vs generalizing acc with
  | nil => exact h
  | cons v rest ih =>
      rw [List.foldl_cons]
      exact ih _ (pushAt_bound acc v ci b hci h)

lemma buildVarToCt_bound (cs : List ConstraintProto) (ci : Nat)
    (acc : List (List Nat)) (h : ∀ l ∈ acc, ∀ y ∈ l, y < ci) :
    ∀ l ∈ buildVarToCt ci cs acc, ∀ y ∈ l, y < ci + cs.length := by
  induction cs generalizing ci acc with
  | nil => simpa using h
  | cons c rest ih =>
      rw [buildVarToCt]
      intro l hl y hy
      have hacc : ∀ l ∈ c.vars.foldl (fun a v => pushAt a v ci) acc, ∀ y ∈ l,
          y < ci + 1 :=
        foldl_pushAt_bound c.vars ci (ci + 1) (Nat.lt_succ_self ci) acc
          (fun l hl y hy => Nat.lt_succ_of_lt (h l hl y hy))
      have := ih (ci + 1) _ hacc l hl y hy
      simp only [List.length_cons]
      omega

/-- Everything `NeighborhoodGenerator.init` guarantees about its result. -/
lemma init_spec (m : CpModelProto) (f : Bool) (g : NeighborhoodGenerator)
    (h : NeighborhoodGenerator.init m f = some g) :
    g.model_proto = m ∧
    g.constraint_to_var = m.constraints.map (fun c => c.vars) ∧
    g.var_to_constraint =
      buildVarToCt 0 m.constraints (List.replicate m.variables_.length []) ∧
    g.decision_variables =
      (buildDecisions m.search_strategy m.variables_.length).1 ∧
    g.decision_variables_set =
      (buildDecisions m.search_strategy m.variables_.length).2 ∧
    g.focus_on_decision_variables =
      (if (buildDecisions m.search_strategy m.variables_.length).1.isEmpty
        then false else f) ∧
    (∀ c ∈ m.constraints, ∀ v ∈ c.vars, v < m.variables_.length) ∧
    (∀ s ∈ m.search_strategy, ∀ v ∈ s.variables_, v < m.variables_.length) := by
  rw [NeighborhoodGenerator.init] at h
  by_cases hc : ((m.constraints.all fun c =>
        c.vars.all fun v => decide (v < m.variables_.length)) &&
      (m.search_strategy.all fun s =>
        s.variables_.all fun v => decide (v < m.variables_.length))) = true
  · rw [if_pos hc] at h
    have hg := Option.some.inj h
    subst hg
    rw [Bool.and_eq_true] at hc
    obtain ⟨hc1, hc2⟩ := hc
    refine ⟨rfl, rfl, rfl, rfl, rfl, rfl, ?_, ?_⟩
    · intro c hcm v hv
      have := List.all_eq_true.mp hc1 c hcm
      simpa using List.all_eq_true.mp this v hv
    · intro s hsm v hv
      have := List.all_eq_true.mp hc2 s hsm
      simpa using List.all_eq_true.mp this v hv
  · rw [if_neg hc] at h
    exact absurd h (by simp)

lemma init_ctv_bound (m : CpModelProto) (f : Bool) (g : NeighborhoodGenerator)
    (h : NeighborhoodGenerator.init m f = some g) :
    ∀ l ∈ g.constraint_to_var, ∀ v ∈ l, v < g.model_proto.variables_.length := by
  obtain ⟨hm, hctv, -, -, -, -, hc, -⟩ := init_spec m f g h
  rw [hm, hctv]
  intro l hl v hv
  obtain ⟨c, hcm, rfl⟩ := List.mem_map.mp hl
  exact hc c hcm v hv

lemma init_vtc_bound (m : CpModelProto) (f : Bool) (g : NeighborhoodGenerator)
    (h : NeighborhoodGenerator.init m f = some g) :
    ∀ l ∈ g.var_to_constraint, ∀ ct ∈ l, ct < g.constraint_to_var.length := by
  obtain ⟨hm, hctv, hvtc, -, -, -, -, -⟩ := init_spec m f g h
  rw [hctv, hvtc]
  intro l hl ct hct
  have := buildVarToCt_bound m.constraints 0 _ (by simp) l hl ct hct
  simpa using this

lemma init_dec_inv (m : CpModelProto) (f : Bool) (g : NeighborhoodGenerator)
    (h : NeighborhoodGenerator.init m f = some g) :
    DecInv g.model_proto.variables_.length
      (g.decision_variables, g.decision_variables_set) := by
  obtain ⟨hm, -, -, hdl, hds, -, -, hs⟩ := init_spec m f g h
  rw [hm, hdl, hds]
  exact buildDecisions_inv m.search_strategy m.variables_.length hs

lemma init_focus_nonempty (m : CpModelProto) (f : Bool) (g : NeighborhoodGenerator)
    (h : NeighborhoodGenerator.init m f = some g)
    (hf : g.focus_on_decision_variables = true) : g.decision_variables ≠ [] := by
  obtain ⟨-, -, -, hdl, -, hfoc, -, -⟩ := init_spec m f g h
  intro hnil
  rw [hfoc] at hf
  rw [hdl] at hnil
  rw [hnil] at hf
  simp at hf

/-- Under focus, `IsActive` is membership in the decision-variable list. -/
lemma init_IsActive_iff (m : CpModelProto) (f : Bool) (g : NeighborhoodGenerator)
    (h : NeighborhoodGenerator.init m f = some g)
    (hf : g.focus_on_decision_variables = true) (v : Nat) :
    g.IsActive v = true ↔ v ∈ g.decision_variables := by
  obtain ⟨-, -, hiff, -⟩ := init_dec_inv m f g h
  rw [NeighborhoodGenerator.IsActive, hf]
  simpa using hiff v

lemma init_dec_lt (m : CpModelProto) (f : Bool) (g : NeighborhoodGenerator)
    (h : NeighborhoodGenerator.init m f = some g) :
    ∀ v ∈ g.decision_variables, v < g.model_proto.variables_.length := by
  obtain ⟨-, -, -, hbd⟩ := init_dec_inv m f g h
  exact hbd

end CpModelLns

namespace CpModelLns

lemma foldl_set_true_getD (rel : List Nat) (acc : List Bool) (v : Nat) :
    ((rel.foldl (fun m x => m.set x true) acc).getD v false = true ↔
      acc.getD v false = true ∨ (v ∈ rel ∧ v < acc.length)) := by
  induction rel generalizing acc with
  | nil => simp
  | cons a rest ih =>
      rw [List.foldl_cons, ih]
      by_cases hva : v = a
      · subst hva
        by_cases hlt : v < acc.length
        · rw [getD_set_self _ _ _ _ hlt]
          simp [hlt]
        · rw [getD_of_length_le _ _ _ (by simpa using Nat.le_of_not_lt hlt),
            getD_of_length_le _ _ _ (Nat.le_of_not_lt hlt)]
          simp [hlt]
      · rw [getD_set_ne _ _ _ _ _ (fun h => hva h.symm)]
        simp only [List.length_set, List.mem_cons]
        constructor
        · rintro (h | h)
          · exact Or.inl h
          · exact Or.inr ⟨Or.inr h.1, h.2⟩
        · rintro (h | ⟨h1 | h1, h2⟩)
          · exact Or.inl h
          · exact absurd h1 hva
          · exact Or.inr ⟨h1, h2⟩

lemma relaxedMask_getD (n : Nat) (rel : List Nat) (v : Nat) :
    ((relaxedMask n rel).getD v false = true ↔ v ∈ rel ∧ v < n) := by
  rw [relaxedMask, foldl_set_true_getD, replicate_false_getD]
  simp

/-- The relaxed indices and the fixed list are always disjoint: the former
requires a true mask bit, the latter a false one. -/
lemma relaxed_fixed_disjoint (g : NeighborhoodGenerator) (mask : List Bool) :
    ∀ v ∈ relaxedIndices g mask, v ∉ fixedVariablesFor g mask := by
  intro v hv hfix
  rw [relaxedIndices] at hv
  rw [fixedVariablesFor] at hfix
  obtain ⟨-, h1⟩ := List.mem_filter.mp hv
  by_cases hf : g.focus_on_decision_variables
  · rw [if_pos hf] at hfix
    obtain ⟨-, h2⟩ := List.mem_filter.mp hfix
    rw [h1] at h2
    exact Bool.noConfusion h2
  · rw [if_neg hf] at hfix
    obtain ⟨-, h2⟩ := List.mem_filter.mp hfix
    rw [h1] at h2
    exact Bool.noConfusion h2

lemma ceil_mul_nonneg (d : ℚ) (L : ℕ) (h0 : 0 ≤ d) : 0 ≤ ⌈d * (L : ℚ)⌉ :=
  Int.ceil_nonneg (mul_nonneg h0 (by positivity))

lemma ceil_mul_le (d : ℚ) (L : ℕ) (h1 : d ≤ 1) : ⌈d * (L : ℚ)⌉ ≤ (L : ℤ) := by
  rw [Int.ceil_le]
  push_cast
  exact mul_le_of_le_one_left (by positivity) h1

end CpModelLns

namespace CpModelLns

lemma collectVar_batch_mem (g : NeighborhoodGenerator)
    (acc : List Bool × List Nat × Nat) (a x : Nat)
    (h : x ∈ (collectVar g acc a).2.1) : x ∈ acc.2.1 ∨ x = a := by
  rw [collectVar] at h
  by_cases hu : acc.1.getD a false = true
  · rw [if_pos hu] at h
    exact Or.inl h
  · rw [if_neg hu] at h
    rcases List.mem_append.mp h with h1 | h1
    · exact Or.inl h1
    · simp at h1; exact Or.inr h1

lemma collectCt_batch_mem (g : NeighborhoodGenerator) (vs : List Nat)
    (acc : List Bool × List Nat × Nat) (x : Nat)
    (h : x ∈ (vs.foldl (collectVar g) acc).2.1) : x ∈ acc.2.1 ∨ x ∈ vs := by
  induction vs generalizing acc with
  | nil => exact Or.inl h
  | cons a rest ih =>
      rw [List.foldl_cons] at h
      rcases ih _ h with h1 | h1
      · rcases collectVar_batch_mem g acc a x h1 with h2 | h2
        · exact Or.inl h2
        · subst h2; exact Or.inr (List.mem_cons_self _ _)
      · exact Or.inr (List.mem_cons_of_mem _ h1)

lemma collectNeighbors_batch_mem (g : NeighborhoodGenerator) (cts : List Nat)
    (acc : List Bool × List Nat × Nat) (x : Nat)
    (h : x ∈ (cts.foldl (collectCt g) acc).2.1) :
    x ∈ acc.2.1 ∨ ∃ ct ∈ cts, x ∈ g.constraint_to_var.getD ct [] := by
  induction cts generalizing acc with
  | nil => exact Or.inl h
  | cons c rest ih =>
      rw [List.foldl_cons] at h
      rcases ih _ h with h1 | h1
      · rw [collectCt] at h1
        rcases collectCt_batch_mem g _ acc x h1 with h2 | h2
        · exact Or.inl h2
        · exact Or.inr ⟨c, List.mem_cons_self _ _, h2⟩
      · obtain ⟨ct, hct, hx⟩ := h1
        exact Or.inr ⟨ct, List.mem_cons_of_mem _ hct, hx⟩

lemma collectNeighbors_mem (g : NeighborhoodGenerator) (v : Nat) (used : List Bool)
    (x : Nat) (h : x ∈ (collectNeighbors g v used).2.1) :
    ∃ ct ∈ g.var_to_constraint.getD v [], x ∈ g.constraint_to_var.getD ct [] := by
  rw [collectNeighbors] at h
  rcases collectNeighbors_batch_mem g _ _ x h with h1 | h1
  · simp at h1
  · exact h1

lemma appendVars_vis_mem (g : NeighborhoodGenerator) (t : Nat)
    (batch vis rel : List Nat) (x : Nat)
    (h : x ∈ (appendVars g t batch vis rel).1) : x ∈ vis ∨ x ∈ batch := by
  induction batch generalizing vis rel with
  | nil => exact Or.inl h
  | cons a rest ih =>
      rw [appendVars] at h
      by_cases hstop : t ≤ (if g.IsActive a = true then rel ++ [a] else rel).length
      · rw [if_pos hstop] at h
        rcases List.mem_append.mp h with h1 | h1
        · exact Or.inl h1
        · simp at h1; subst h1; exact Or.inr (List.mem_cons_self _ _)
      · rw [if_neg hstop] at h
        rcases ih (vis ++ [a]) _ h with h1 | h1
        · rcases List.mem_append.mp h1 with h2 | h2
          · exact Or.inl h2
          · simp at h2; subst h2; exact Or.inr (List.mem_cons_self _ _)
        · exact Or.inr (List.mem_cons_of_mem _ h1)

lemma appendVars_rel_mem (g : NeighborhoodGenerator) (t : Nat)
    (batch vis rel : List Nat) (x : Nat)
    (h : x ∈ (appendVars g t batch vis rel).2) :
    x ∈ rel ∨ (x ∈ batch ∧ g.IsActive x = true) := by
  induction batch generalizing vis rel with
  | nil => exact Or.inl h
  | cons a rest ih =>
      rw [appendVars] at h
      by_cases hact : g.IsActive a = true
      · rw [if_pos hact] at h
        by_cases hstop : t ≤ (rel ++ [a]).length
        · rw [if_pos (by simpa [hact] using hstop)] at h
          rcases List.mem_append.mp h with h1 | h1
          · exact Or.inl h1
          · simp at h1; subst h1
            exact Or.inr ⟨List.mem_cons_self _ _, hact⟩
        · rw [if_neg (by simpa [hact] using hstop)] at h
          rcases ih (vis ++ [a]) (rel ++ [a]) (by simpa [hact] using h) with h1 | h1
          · rcases List.mem_append.mp h1 with h2 | h2
            · exact Or.inl h2
            · simp at h2; subst h2
              exact Or.inr ⟨List.mem_cons_self _ _, hact⟩
          · exact Or.inr ⟨List.mem_cons_of_mem _ h1.1, h1.2⟩
      · rw [if_neg hact] at h
        by_cases hstop : t ≤ rel.length
        · rw [if_pos (by simpa [hact] using hstop)] at h
          exact Or.inl h
        · rw [if_neg (by simpa [hact] using hstop)] at h
          rcases ih (vis ++ [a]) rel (by simpa [hact] using h) with h1 | h1
          · exact Or.inl h1
          · exact Or.inr ⟨List.mem_cons_of_mem _ h1.1, h1.2⟩

lemma appendVars_rel_len_lt (g : NeighborhoodGenerator) (t : Nat)
    (batch vis rel : List Nat) (h : rel.length < t) :
    (appendVars g t batch vis rel).2.length ≤ t := by
  induction batch generalizing vis rel with
  | nil => exact Nat.le_of_lt h
  | cons a rest ih =>
      rw [appendVars]
      have hlen : (if g.IsActive a = true then rel ++ [a] else rel).length ≤ t := by
        by_cases hact : g.IsActive a = true
        · simpa [hact] using h
        · simpa [hact] using Nat.le_of_lt h
      by_cases hstop : t ≤ (if g.IsActive a = true then rel ++ [a] else rel).length
      · rw [if_pos hstop]
        exact hlen
      · rw [if_neg hstop]
        exact ih (vis ++ [a]) _ (Nat.lt_of_not_le hstop)

lemma appendVars_rel_len_le (g : NeighborhoodGenerator) (t : Nat)
    (batch vis rel : List Nat) (h : rel.length ≤ t) :
    (appendVars g t batch vis rel).2.length ≤ t + 1 := by
  rcases Nat.lt_or_ge rel.length t with hlt | hge
  · exact Nat.le_succ_of_le (appendVars_rel_len_lt g t batch vis rel hlt)
  · have heq : rel.length = t := Nat.le_antisymm h hge
    cases batch with
    | nil => rw [appendVars]; simp only []; omega
    | cons a rest =>
        rw [appendVars]
        have hstop : t ≤ (if g.IsActive a = true then rel ++ [a] else rel).length := by
          by_cases hact : g.IsActive a = true <;> simp [hact] <;> omega
        rw [if_pos hstop]
        by_cases hact : g.IsActive a = true <;> simp [hact] <;> omega

end CpModelLns

namespace CpModelLns

lemma varGraphStep_vis_mem (g : NeighborhoodGenerator) (t : Nat)
    (sh : List Nat → List Nat) (hsh : ∀ l, List.Perm (sh l) l) (w : VarWalk)
    (i x : Nat) (h : x ∈ (varGraphStep g t sh w i).visited) :
    x ∈ w.visited ∨
      ∃ ct ∈ g.var_to_constraint.getD (w.visited.getD i 0) [],
        x ∈ g.constraint_to_var.getD ct [] := by
  rw [varGraphStep] at h
  simp only [] at h
  rcases appendVars_vis_mem g t _ _ _ x h with h1 | h1
  · exact Or.inl h1
  · by_cases hc : t ≤ (collectNeighbors g (w.visited.getD i 0) w.used).2.2 +
        w.relaxed.length
    · rw [if_pos hc] at h1
      exact Or.inr (collectNeighbors_mem g _ _ x ((hsh _).mem_iff.mp h1))
    · rw [if_neg hc] at h1
      exact Or.inr (collectNeighbors_mem g _ _ x h1)

lemma varGraphStep_rel_mem (g : NeighborhoodGenerator) (t : Nat)
    (sh : List Nat → List Nat) (hsh : ∀ l, List.Perm (sh l) l) (w : VarWalk)
    (i x : Nat) (h : x ∈ (varGraphStep g t sh w i).relaxed) :
    x ∈ w.relaxed ∨
      ((∃ ct ∈ g.var_to_constraint.getD (w.visited.getD i 0) [],
        x ∈ g.constraint_to_var.getD ct []) ∧ g.IsActive x = true) := by
  rw [varGraphStep] at h
  simp only [] at h
  rcases appendVars_rel_mem g t _ _ _ x h with h1 | h1
  · exact Or.inl h1
  · refine Or.inr ⟨?_, h1.2⟩
    by_cases hc : t ≤ (collectNeighbors g (w.visited.getD i 0) w.used).2.2 +
        w.relaxed.length
    · rw [if_pos hc] at h1
      exact collectNeighbors_mem g _ _ x ((hsh _).mem_iff.mp h1.1)
    · rw [if_neg hc] at h1
      exact collectNeighbors_mem g _ _ x h1.1

lemma varGraphStep_rel_len_lt (g : NeighborhoodGenerator) (t : Nat)
    (sh : List Nat → List Nat) (w : VarWalk) (i : Nat)
    (h : w.relaxed.length < t) :
    (varGraphStep g t sh w i).relaxed.length ≤ t := by
  rw [varGraphStep]
  exact appendVars_rel_len_lt g t _ _ _ h

lemma varGraphStep_rel_len_le (g : NeighborhoodGenerator) (t : Nat)
    (sh : List Nat → List Nat) (w : VarWalk) (i : Nat)
    (h : w.relaxed.length ≤ t) :
    (varGraphStep g t sh w i).relaxed.length ≤ t + 1 := by
  rw [varGraphStep]
  exact appendVars_rel_len_le g t _ _ _ h

lemma varGraphLoop_rel_len_lt (g : NeighborhoodGenerator) (t : Nat)
    (shuf : Nat → List Nat → List Nat) (fuel i : Nat) (w : VarWalk)
    (h : w.relaxed.length < t) :
    (varGraphLoop g t shuf fuel i w).relaxed.length ≤ t := by
  induction fuel generalizing i w with
  | zero => exact Nat.le_of_lt h
  | succ fuel ih =>
      rw [varGraphLoop]
      by_cases hi : w.visited.length ≤ i
      · rw [if_pos hi]; exact Nat.le_of_lt h
      · rw [if_neg hi]
        by_cases hstop : t ≤ (varGraphStep g t (shuf i) w i).relaxed.length
        · rw [if_pos hstop]
          exact varGraphStep_rel_len_lt g t (shuf i) w i h
        · rw [if_neg hstop]
          exact ih (i + 1) _ (Nat.lt_of_not_le hstop)

lemma varGraphLoop_rel_len_le (g : NeighborhoodGenerator) (t : Nat)
    (shuf : Nat → List Nat → List Nat) (fuel i : Nat) (w : VarWalk)
    (h : w.relaxed.length ≤ t) :
    (varGraphLoop g t shuf fuel i w).relaxed.length ≤ t + 1 := by
  induction fuel generalizing i w with
  | zero => exact Nat.le_succ_of_le h
  | succ fuel ih =>
      rw [varGraphLoop]
      by_cases hi : w.visited.length ≤ i
      · rw [if_pos hi]; exact Nat.le_succ_of_le h
      · rw [if_neg hi]
        by_cases hstop : t ≤ (varGraphStep g t (shuf i) w i).relaxed.length
        · rw [if_pos hstop]
          exact varGraphStep_rel_len_le g t (shuf i) w i h
        · rw [if_neg hstop]
          exact ih (i + 1) _ (Nat.le_of_lt (Nat.lt_of_not_le hstop))

/-- Any property preserved by every step of the walk is an invariant of the
whole loop. -/
lemma varGraphLoop_preserve (g : NeighborhoodGenerator) (t : Nat)
    (shuf : Nat → List Nat → List Nat) (P : VarWalk → Prop)
    (hstep : ∀ i w, i < w.visited.length → P w → P (varGraphStep g t (shuf i) w i))
    (fuel i : Nat) (w : VarWalk) (h : P w) :
    P (varGraphLoop g t shuf fuel i w) := by
  induction fuel generalizing i w with
  | zero => exact h
  | succ fuel ih =>
      rw [varGraphLoop]
      by_cases hi : w.visited.length ≤ i
      · rw [if_pos hi]; exact h
      · rw [if_neg hi]
        have h' := hstep i w (Nat.lt_of_not_le hi) h
        by_cases hstop : t ≤ (varGraphStep g t (shuf i) w i).relaxed.length
        · rw [if_pos hstop]; exact h'
        · rw [if_neg hstop]; exact ih (i + 1) _ h'

end CpModelLns

namespace CpModelLns

/-- Everything the walk relaxes is connected to the start variable, and is
either the start variable itself or an active variable drawn from some
constraint's variable list. -/
lemma varGraphSelection_inv (g : NeighborhoodGenerator) (fc : Nat)
    (shuf : Nat → List Nat → List Nat) (t : Nat)
    (hsh : ∀ i l, List.Perm (shuf i l) l) :
    ∀ x ∈ (varGraphSelection g fc shuf t).relaxed,
      VarConnected g (varGraphFirst g fc) x ∧
      (x = varGraphFirst g fc ∨
        (g.IsActive x = true ∧ ∃ ct, x ∈ g.constraint_to_var.getD ct [])) := by
  set first := varGraphFirst g fc with hfirst
  have main :
      (fun w : VarWalk =>
        (∀ x ∈ w.visited, VarConnected g first x) ∧
        (∀ x ∈ w.relaxed, VarConnected g first x ∧
          (x = first ∨
            (g.IsActive x = true ∧ ∃ ct, x ∈ g.constraint_to_var.getD ct []))))
      (varGraphSelection g fc shuf t) := by
    rw [varGraphSelection]
    refine varGraphLoop_preserve g t shuf
      (fun w : VarWalk =>
        (∀ x ∈ w.visited, VarConnected g first x) ∧
        (∀ x ∈ w.relaxed, VarConnected g first x ∧
          (x = first ∨
            (g.IsActive x = true ∧ ∃ ct, x ∈ g.constraint_to_var.getD ct []))))
      ?_ _ 0 _ ?_
    · intro i w hi hP
      have hsrc : VarConnected g first (w.visited.getD i 0) :=
        hP.1 _ (getD_mem_of_lt _ _ _ hi)
      constructor
      · intro x hx
        rcases varGraphStep_vis_mem g t (shuf i) (hsh i) w i x hx with h1 | h1
        · exact hP.1 x h1
        · obtain ⟨ct, hct, hx2⟩ := h1
          exact VarConnected.step _ ct _ hsrc hct hx2
      · intro x hx
        rcases varGraphStep_rel_mem g t (shuf i) (hsh i) w i x hx with h1 | h1
        · exact hP.2 x h1
        · obtain ⟨⟨ct, hct, hx2⟩, hact⟩ := h1
          exact ⟨VarConnected.step _ ct _ hsrc hct hx2,
            Or.inr ⟨hact, ct, hx2⟩⟩
    · constructor
      · intro x hx
        simp at hx
        subst hx
        exact VarConnected.refl
      · intro x hx
        simp at hx
        subst hx
        exact ⟨VarConnected.refl, Or.inl rfl⟩
  exact main.2

lemma varGraphSelection_rel_len_le (g : NeighborhoodGenerator) (fc : Nat)
    (shuf : Nat → List Nat → List Nat) (t : Nat) (ht : 1 ≤ t) :
    (varGraphSelection g fc shuf t).relaxed.length ≤ t + 1 := by
  rw [varGraphSelection]
  exact varGraphLoop_rel_len_le g t shuf _ 0 _ (by simpa using ht)

lemma varGraphSelection_rel_len_lt (g : NeighborhoodGenerator) (fc : Nat)
    (shuf : Nat → List Nat → List Nat) (t : Nat) (ht : 2 ≤ t) :
    (varGraphSelection g fc shuf t).relaxed.length ≤ t := by
  rw [varGraphSelection]
  exact varGraphLoop_rel_len_lt g t shuf _ 0 _ (by simpa using ht)

end CpModelLns

namespace CpModelLns

lemma removeSwap_subset (l : List Nat) (i x : Nat) (h : x ∈ removeSwap l i) :
    x ∈ l := by
  rw [removeSwap] at h
  have h1 := List.dropLast_sublist (l.set i (l.getD (l.length - 1) 0))
  have h2 := h1.subset h
  rcases List.mem_or_eq_of_mem_set h2 with h3 | h3
  · exact h3
  · subst h3
    by_cases hl : l.length = 0
    · rw [List.length_eq_zero] at hl
      subst hl
      simp at h2
    · exact getD_mem_of_lt l _ 0 (by omega)

lemma enqueueCt_mem (p : List Bool × List Nat) (ct x : Nat)
    (h : x ∈ (enqueueCt p ct).2) : x ∈ p.2 ∨ x = ct := by
  rw [enqueueCt] at h
  by_cases ha : p.1.getD ct false = true
  · rw [if_pos ha] at h; exact Or.inl h
  · rw [if_neg ha] at h
    rcases List.mem_append.mp h with h1 | h1
    · exact Or.inl h1
    · simp at h1; exact Or.inr h1

lemma foldl_enqueueCt_mem (cts : List Nat) (p : List Bool × List Nat) (x : Nat)
    (h : x ∈ (cts.foldl enqueueCt p).2) : x ∈ p.2 ∨ x ∈ cts := by
  induction cts generalizing p with
  | nil => exact Or.inl h
  | cons a rest ih =>
      rw [List.foldl_cons] at h
      rcases ih _ h with h1 | h1
      · rcases enqueueCt_mem p a x h1 with h2 | h2
        · exact Or.inl h2
        · subst h2; exact Or.inr (List.mem_cons_self _ _)
      · exact Or.inr (List.mem_cons_of_mem _ h1)

lemma enqueueConstraints_mem (g : NeighborhoodGenerator) (var : Nat)
    (added : List Bool) (next : List Nat) (x : Nat)
    (h : x ∈ (enqueueConstraints g var added next).2) :
    x ∈ next ∨ x ∈ g.var_to_constraint.getD var [] := by
  rw [enqueueConstraints] at h
  exact foldl_enqueueCt_mem _ _ x h

/-- Every entry of any (defaulted) bucket of `var_to_constraint` is a valid
constraint index. -/
lemma vtc_getD_bound (g : NeighborhoodGenerator)
    (hvtc : ∀ l ∈ g.var_to_constraint, ∀ c ∈ l, c < g.constraint_to_var.length)
    (var : Nat) :
    ∀ c ∈ g.var_to_constraint.getD var [], c < g.constraint_to_var.length := by
  intro c hc
  by_cases hl : var < g.var_to_constraint.length
  · exact hvtc _ (getD_mem_of_lt _ _ _ hl) c hc
  · rw [getD_of_length_le _ _ _ (Nat.le_of_not_lt hl)] at hc
    simp at hc

lemma ctv_getD_bound (g : NeighborhoodGenerator)
    (hctv : ∀ l ∈ g.constraint_to_var, ∀ v ∈ l, v < g.model_proto.variables_.length)
    (ct : Nat) :
    ∀ v ∈ g.constraint_to_var.getD ct [], v < g.model_proto.variables_.length := by
  intro v hv
  by_cases hl : ct < g.constraint_to_var.length
  · exact hctv _ (getD_mem_of_lt _ _ _ hl) v hv
  · rw [getD_of_length_le _ _ _ (Nat.le_of_not_lt hl)] at hv
    simp at hv

lemma activeVisited_replicate (g : NeighborhoodGenerator) (n : Nat) :
    activeVisited g (List.replicate n false) = ∅ := by
  rw [activeVisited]
  ext x
  simp [replicate_false_getD]

lemma activeVisited_set (g : NeighborhoodGenerator) (vis : List Bool) (v : Nat)
    (hlen : vis.length = g.model_proto.variables_.length) (hv : v < vis.length)
    (hfalse : ¬ vis.getD v false = true) :
    (activeVisited g (vis.set v true)).card =
      (activeVisited g vis).card + (if g.IsActive v = true then 1 else 0) := by
  have hvn : v < g.model_proto.variables_.length := hlen ▸ hv
  have hsplit : activeVisited g (vis.set v true) =
      if g.IsActive v = true then insert v (activeVisited g vis)
      else activeVisited g vis := by
    ext x
    by_cases hx : x = v
    · subst hx
      rw [activeVisited]
      rw [Finset.mem_filter]
      rw [getD_set_self _ _ _ _ hv]
      by_cases hact : g.IsActive x = true
      · simp [hact, Finset.mem_range, hvn]
      · rw [if_neg hact]
        rw [activeVisited, Finset.mem_filter]
        constructor
        · intro hmem
          exact absurd hmem.2.2 hact
        · intro hmem
          exact absurd hmem.2.2 hact
    · rw [activeVisited, Finset.mem_filter,
        getD_set_ne _ _ _ _ _ (fun he => hx he.symm)]
      by_cases hact : g.IsActive v = true
      · rw [if_pos hact, Finset.mem_insert]
        rw [activeVisited, Finset.mem_filter]
        simp [hx]
      · rw [if_neg hact, activeVisited, Finset.mem_filter]
  rw [hsplit]
  by_cases hact : g.IsActive v = true
  · rw [if_pos hact, if_pos hact]
    rw [Finset.card_insert_of_not_mem]
    rw [activeVisited, Finset.mem_filter]
    intro hmem
    exact hfalse hmem.2.1
  · rw [if_neg hact, if_neg hact]
    omega

end CpModelLns

namespace CpModelLns

lemma ctGraphInner_inv (g : NeighborhoodGenerator) (start t : Nat)
    (hvtc : ∀ l ∈ g.var_to_constraint, ∀ c ∈ l, c < g.constraint_to_var.length)
    (batch : List Nat)
    (hbatch : ∀ v ∈ batch,
      v < g.model_proto.variables_.length ∧ CtReachesVar g start v)
    (w : CtWalk) (hw : CtInv g start t w) (hnr : w.num_relaxed < t) :
    CtInv g start t (ctGraphInner g t batch w) := by
  induction batch generalizing w with
  | nil => exact hw
  | cons var rest ih =>
      obtain ⟨hq, hreach, hlen, hcard, hle⟩ := hw
      obtain ⟨hvn, hvreach⟩ := hbatch var (List.mem_cons_self _ _)
      have hbrest : ∀ v ∈ rest,
          v < g.model_proto.variables_.length ∧ CtReachesVar g start v :=
        fun v hv => hbatch v (List.mem_cons_of_mem _ hv)
      rw [ctGraphInner]
      by_cases hvis : w.visited.getD var false = true
      · rw [if_pos hvis]
        exact ih hbrest w ⟨hq, hreach, hlen, hcard, hle⟩ hnr
      · rw [if_neg hvis]
        have hreach' : ∀ v, (w.visited.set var true).getD v false = true →
            CtReachesVar g start v := by
          intro v hv
          by_cases hvv : v = var
          · subst hvv; exact hvreach
          · rw [getD_set_ne _ _ _ _ _ (fun he => hvv he.symm)] at hv
            exact hreach v hv
        have hlen' : (w.visited.set var true).length =
            g.model_proto.variables_.length := by simpa using hlen
        have hcard' : (activeVisited g (w.visited.set var true)).card =
            (if g.IsActive var = true then w.num_relaxed + 1 else w.num_relaxed) := by
          rw [activeVisited_set g w.visited var hlen (hlen ▸ hvn) hvis, hcard]
          by_cases hact : g.IsActive var = true
          · rw [if_pos hact, if_pos hact]
          · rw [if_neg hact, if_neg hact]
            omega
        by_cases hstop : (if g.IsActive var = true then w.num_relaxed + 1
            else w.num_relaxed) = t
        · rw [if_pos hstop]
          refine ⟨hq, hreach', hlen', ?_, ?_⟩
          · exact hcard'.trans rfl
          · rw [hstop]
        · rw [if_neg hstop]
          have hnr' : (if g.IsActive var = true then w.num_relaxed + 1
              else w.num_relaxed) < t := by
            by_cases hact : g.IsActive var = true
            · rw [if_pos hact] at hstop ⊢; omega
            · rw [if_neg hact] at hstop ⊢; omega
          refine ih hbrest _ ⟨?_, hreach', hlen', hcard', Nat.le_of_lt hnr'⟩ hnr'
          intro ct hct
          rcases enqueueConstraints_mem g var w.added w.next_constraints ct
              hct with h1 | h1
          · exact hq ct h1
          · obtain ⟨c, hc, hvc⟩ := hvreach
            exact ⟨vtc_getD_bound g hvtc var ct h1,
              CtConnected.step c var ct hc hvc h1⟩

lemma ctGraphLoop_inv (g : NeighborhoodGenerator) (start t : Nat)
    (pick : Nat → Nat → Nat) (shuf : Nat → List Nat → List Nat)
    (hpick : ∀ s k, 0 < k → pick s k < k)
    (hshuf : ∀ i l, List.Perm (shuf i l) l)
    (hvtc : ∀ l ∈ g.var_to_constraint, ∀ c ∈ l, c < g.constraint_to_var.length)
    (hctv : ∀ l ∈ g.constraint_to_var, ∀ v ∈ l, v < g.model_proto.variables_.length)
    (fuel step : Nat) (w : CtWalk) (hw : CtInv g start t w) :
    ∃ w', ctGraphLoop g t pick shuf fuel step w = some w' ∧ CtInv g start t w' := by
  induction fuel generalizing step w with
  | zero => exact ⟨w, rfl, hw⟩
  | succ fuel ih =>
      rw [ctGraphLoop]
      by_cases hstop : t ≤ w.num_relaxed
      · rw [if_pos hstop]; exact ⟨w, rfl, hw⟩
      · rw [if_neg hstop]
        by_cases hempty : w.next_constraints.isEmpty = true
        · rw [if_pos hempty]; exact ⟨w, rfl, hw⟩
        · rw [if_neg hempty]
          have hlen0 : 0 < w.next_constraints.length := by
            cases hnc : w.next_constraints with
            | nil => rw [hnc] at hempty; simp at hempty
            | cons a l => simp [hnc]
          have hi : pick step w.next_constraints.length <
              w.next_constraints.length := hpick step _ hlen0
          have hctmem : w.next_constraints.getD
              (pick step w.next_constraints.length) 0 ∈ w.next_constraints :=
            getD_mem_of_lt _ _ _ hi
          obtain ⟨hctlt, hctconn⟩ := hw.1 _ hctmem
          rw [if_neg (Nat.not_le_of_lt hctlt)]
          have hw' : CtInv g start t (ctGraphInner g t
              (shuf step (g.constraint_to_var.getD
                (w.next_constraints.getD (pick step w.next_constraints.length) 0)
                []))
              ⟨w.visited, w.added,
                removeSwap w.next_constraints (pick step w.next_constraints.length),
                w.num_relaxed⟩) := by
            refine ctGraphInner_inv g start t hvtc _ ?_ _ ?_ (Nat.lt_of_not_le hstop)
            · intro v hv
              have hv2 := (hshuf step _).mem_iff.mp hv
              exact ⟨ctv_getD_bound g hctv _ v hv2, ⟨_, hctconn, hv2⟩⟩
            · refine ⟨?_, hw.2.1, hw.2.2.1, hw.2.2.2.1, hw.2.2.2.2⟩
              intro ct hct
              exact hw.1 ct (removeSwap_subset _ _ ct hct)
          exact ih (step + 1) _ hw'

end CpModelLns

namespace CpModelLns

/-- The fixed list handed to `FixGivenPosition` by `RelaxGivenVariables` only
holds in-range variable indices, so the restriction succeeds whenever the
incumbent has the right size. -/
lemma fixedVariablesFor_lt (m : CpModelProto) (f : Bool) (g : NeighborhoodGenerator)
    (h : NeighborhoodGenerator.init m f = some g) (mask : List Bool) :
    ∀ v ∈ fixedVariablesFor g mask, v < g.model_proto.variables_.length := by
  intro v hv
  rw [fixedVariablesFor] at hv
  by_cases hf : g.focus_on_decision_variables
  · rw [if_pos hf] at hv
    exact init_dec_lt m f g h v (List.mem_of_mem_filter hv)
  · rw [if_neg hf] at hv
    have := List.mem_of_mem_filter hv
    simpa using this

lemma RelaxGivenVariables_some (m : CpModelProto) (f : Bool)
    (g : NeighborhoodGenerator) (h : NeighborhoodGenerator.init m f = some g)
    (r : CpSolverResponse) (hlen : r.solution.length = m.variables_.length)
    (mask : List Bool) :
    g.RelaxGivenVariables r mask =
      some
        { variables_ := ((fixedVariablesFor g mask).foldl (fixOneVariable r)
            g.model_proto).variables_
          constraints := g.model_proto.constraints
          search_strategy := g.model_proto.search_strategy
          solution_hint := some
            { vars := List.range g.model_proto.variables_.length
              values := (List.range g.model_proto.variables_.length).map
                (fun v => r.solution.getD v 0) } } := by
  have hm : g.model_proto = m := (init_spec m f g h).1
  rw [NeighborhoodGenerator.RelaxGivenVariables]
  exact FixGivenPosition_eq_some r _ g.model_proto (by rw [hm]; exact hlen)
    (fixedVariablesFor_lt m f g h mask)

lemma simplePool_nodup (m : CpModelProto) (f : Bool) (g : NeighborhoodGenerator)
    (h : NeighborhoodGenerator.init m f = some g) : (simplePool g).Nodup := by
  rw [simplePool]
  by_cases hf : g.focus_on_decision_variables
  · rw [if_pos hf]
    exact (init_dec_inv m f g h).2.1
  · rw [if_neg hf]
    exact List.nodup_range _

lemma simplePool_lt (m : CpModelProto) (f : Bool) (g : NeighborhoodGenerator)
    (h : NeighborhoodGenerator.init m f = some g) :
    ∀ v ∈ simplePool g, v < g.model_proto.variables_.length := by
  intro v hv
  rw [simplePool] at hv
  by_cases hf : g.focus_on_decision_variables
  · rw [if_pos hf] at hv
    exact init_dec_lt m f g h v hv
  · rw [if_neg hf] at hv
    simpa using hv

end CpModelLns

namespace CpModelLns

/-- C3: for an incumbent with one entry per model variable and in-range fix
positions, `FixGivenPosition` succeeds; each fixed variable's domain becomes
the single-point interval `[incumbent[v], incumbent[v]]`, the prior hint is
replaced by a hint listing every variable `0..n-1` with its incumbent value,
and every other variable, every constraint and the search strategies are
unchanged. -/
theorem c3_fix_given_position (response : CpSolverResponse) (toFix : List Nat)
    (m : CpModelProto) (hlen : response.solution.length = m.variables_.length)
    (hfix : ∀ v ∈ toFix, v < m.variables_.length) :
    ∃ m', FixGivenPosition response toFix m = some m' ∧
      m'.variables_.length = m.variables_.length ∧
      (∀ v ∈ toFix, m'.variables_.getD v default =
        { domain := [response.solution.getD v 0, response.solution.getD v 0] }) ∧
      (∀ v, v ∉ toFix →
        m'.variables_.getD v default = m.variables_.getD v default) ∧
      m'.solution_hint = some
        { vars := List.range m.variables_.length
          values := (List.range m.variables_.length).map
            (fun v => response.solution.getD v 0) } ∧
      m'.constraints = m.constraints ∧
      m'.search_strategy = m.search_strategy := by
  refine ⟨_, FixGivenPosition_eq_some response toFix m hlen hfix,
    fixFold_length response toFix m, ?_, ?_, rfl, rfl, rfl⟩
  · intro v hv
    rw [fixFold_getD, if_pos ⟨hv, hfix v hv⟩]
  · intro v hv
    rw [fixFold_getD, if_neg (by simp [hv])]

/-- C3 witness: fixing variable 0 of the one-variable model to incumbent 7. -/
theorem c3_witness :
    ∃ m', FixGivenPosition ⟨[7]⟩ [0] exModelSingle = some m' ∧
      m'.variables_.length = exModelSingle.variables_.length ∧
      (∀ v ∈ [0], m'.variables_.getD v default =
        { domain := [(⟨[7]⟩ : CpSolverResponse).solution.getD v 0,
                     (⟨[7]⟩ : CpSolverResponse).solution.getD v 0] }) ∧
      (∀ v, v ∉ [0] → m'.variables_.getD v default =
        exModelSingle.variables_.getD v default) ∧
      m'.solution_hint = some
        { vars := List.range exModelSingle.variables_.length
          values := (List.range exModelSingle.variables_.length).map
            (fun v => (⟨[7]⟩ : CpSolverResponse).solution.getD v 0) } ∧
      m'.constraints = exModelSingle.constraints ∧
      m'.search_strategy = exModelSingle.search_strategy :=
  c3_fix_given_position ⟨[7]⟩ [0] exModelSingle (by decide) (by decide)

/-- C4: whenever `ceil(difficulty * num_active_vars)` equals
`num_active_vars`, both graph generators return the unmodified input model,
for every incumbent, start draw and shuffle oracle. -/
theorem c4_full_target_returns_model (g : NeighborhoodGenerator)
    (r : CpSolverResponse) (fc sc : Nat) (pick : Nat → Nat → Nat)
    (shuf shuf2 : Nat → List Nat → List Nat) (d : ℚ)
    (h : ⌈d * (numActiveVars g : ℚ)⌉ = (numActiveVars g : ℤ)) :
    VarGraphGenerate g r fc shuf d = some g.model_proto ∧
    CtGraphGenerate g r sc pick shuf2 d = some g.model_proto := by
  constructor
  · rw [VarGraphGenerate, h, varGraphGenerateT, if_pos rfl]
  · rw [CtGraphGenerate, h, ctGraphGenerateT, if_pos rfl]

/-- C4 witness: difficulty 1 on the one-variable model. -/
theorem c4_witness :
    VarGraphGenerate exGenSingle ⟨[0]⟩ 0 (fun i l => l) 1 =
      some exGenSingle.model_proto ∧
    CtGraphGenerate exGenSingle ⟨[0]⟩ 0 (fun i k => 0) (fun i l => l) 1 =
      some exGenSingle.model_proto :=
  c4_full_target_returns_model exGenSingle ⟨[0]⟩ 0 0 (fun i k => 0)
    (fun i l => l) (fun i l => l) 1
    (by rw [show numActiveVars exGenSingle = 1 from rfl]; norm_num)

/-- C1 (amended): the relaxed and fixed variable sets are always disjoint;
their sizes sum to the model's variable count when focus is off, and when
focus is on the number of relaxed decision variables plus the number of fixed
variables equals the decision-set size instead. -/
theorem c1_partition_amended (m : CpModelProto) (f : Bool)
    (g : NeighborhoodGenerator) (h : NeighborhoodGenerator.init m f = some g)
    (mask : List Bool) :
    (∀ v ∈ relaxedIndices g mask, v ∉ fixedVariablesFor g mask) ∧
    (g.focus_on_decision_variables = false →
      (relaxedIndices g mask).length + (fixedVariablesFor g mask).length =
        m.variables_.length) ∧
    (g.focus_on_decision_variables = true →
      (g.decision_variables.filter (fun v => mask.getD v false)).length +
        (fixedVariablesFor g mask).length = g.decision_variables.length) := by
  have hm : g.model_proto = m := (init_spec m f g h).1
  refine ⟨relaxed_fixed_disjoint g mask, ?_, ?_⟩
  · intro hf
    rw [relaxedIndices, fixedVariablesFor, if_neg (by rw [hf]; simp), hm]
    have h2 := @List.length_eq_length_filter_add _
      (List.range m.variables_.length) (fun v => mask.getD v false)
    rw [List.length_range] at h2
    exact h2.symm
  · intro hf
    rw [fixedVariablesFor, if_pos hf]
    exact (List.length_eq_length_filter_add
      (fun v => mask.getD v false)).symm

/-- C1 counterexample: with focus on, decision set `{0, 1}` inside a
three-variable model, the selection the variable-graph walk produces for
`target_size = 1` relaxes `{0, 1}` and fixes nothing, so the sizes sum to 2,
not to the model's variable count 3; the claim's sum equation fails. -/
theorem c1_counterexample :
    NeighborhoodGenerator.init exModelFocus true = some exGenFocus ∧
    exModelFocus.variables_.length = 3 ∧
    (∀ i l, List.Perm ((fun (i : Nat) (l : List Nat) => l) i l) l) ∧
    (relaxedIndices exGenFocus
        (relaxedMask 3 (varGraphSelection exGenFocus 0 (fun i l => l) 1).relaxed)).length +
      (fixedVariablesFor exGenFocus
        (relaxedMask 3 (varGraphSelection exGenFocus 0 (fun i l => l) 1).relaxed)).length
      ≠ exModelFocus.variables_.length :=
  ⟨by decide, by decide, fun i l => List.Perm.refl l, by decide⟩

/-- C2 (amended): with a non-empty active pool, difficulty 0 makes
`target_size = 0 ≠ num_active_vars`, so both graph generators hit the fatal
`CHECK_GT(target_size, 0)` (modelled as `none`) instead of returning a model. -/
theorem c2_difficulty_zero_fatal (g : NeighborhoodGenerator)
    (r : CpSolverResponse) (fc sc : Nat) (pick : Nat → Nat → Nat)
    (shuf shuf2 : Nat → List Nat → List Nat) (hactive : 1 ≤ numActiveVars g) :
    VarGraphGenerate g r fc shuf 0 = none ∧
    CtGraphGenerate g r sc pick shuf2 0 = none := by
  have h0 : (⌈(0 : ℚ) * (numActiveVars g : ℚ)⌉ : ℤ) = 0 := by simp
  have hne : ¬ ((0 : ℤ) = (numActiveVars g : ℤ)) := by
    intro he
    have h1 : (1 : ℤ) ≤ (numActiveVars g : ℤ) := by exact_mod_cast hactive
    omega
  constructor
  · rw [VarGraphGenerate, h0, varGraphGenerateT, if_neg hne, if_pos le_rfl]
  · rw [CtGraphGenerate, h0, ctGraphGenerateT, if_neg hne, if_pos le_rfl]

/-- C2 witness: the two-variable model with one constraint. -/
theorem c2_witness :
    VarGraphGenerate exGenPair ⟨[1, 1]⟩ 0 (fun i l => l) 0 = none ∧
    CtGraphGenerate exGenPair ⟨[1, 1]⟩ 0 (fun i k => 0) (fun i l => l) 0 = none :=
  c2_difficulty_zero_fatal exGenPair ⟨[1, 1]⟩ 0 0 (fun i k => 0) (fun i l => l)
    (fun i l => l) (by rw [show numActiveVars exGenPair = 2 from rfl]; omega)

/-- C2 counterexample: on the two-variable model (active pool of size 2,
matching incumbent), difficulty 0 makes the variable-graph and
constraint-graph `Generate` fail the `CHECK_GT(target_size, 0)` — they return
an error (`none`), not a restricted model. -/
theorem c2_counterexample :
    NeighborhoodGenerator.init exModelPair false = some exGenPair ∧
    VarGraphGenerate exGenPair ⟨[1, 1]⟩ 0 (fun i l => l) 0 = none ∧
    CtGraphGenerate exGenPair ⟨[1, 1]⟩ 0 (fun i k => 0) (fun i l => l) 0 = none := by
  have h0 : (⌈(0 : ℚ) * ((numActiveVars exGenPair : ℕ) : ℚ)⌉ : ℤ) = 0 := by simp
  refine ⟨by decide, ?_, ?_⟩
  · rw [VarGraphGenerate, h0, varGraphGenerateT, if_neg (by decide), if_pos le_rfl]
  · rw [CtGraphGenerate, h0, ctGraphGenerateT, if_neg (by decide), if_pos le_rfl]

end CpModelLns

namespace CpModelLns

/-- C5: the Simple generator fixes exactly
`ceil((1 - difficulty) * pool_size)` distinct variables drawn from its
candidate pool, for every difficulty in `[0, 1]`; at difficulty 1 the fixed
set is empty, and the call always produces a restricted model (no failure). -/
theorem c5_simple_generator (m : CpModelProto) (f : Bool)
    (g : NeighborhoodGenerator) (h : NeighborhoodGenerator.init m f = some g)
    (r : CpSolverResponse) (hlen : r.solution.length = m.variables_.length)
    (shuffle : List Nat → List Nat)
    (hsh : List.Perm (shuffle (simplePool g)) (simplePool g)) (d : ℚ)
    (h0 : 0 ≤ d) (h1 : d ≤ 1) :
    (simpleFixedVariables g shuffle
        (⌈(1 - d) * ((simplePool g).length : ℚ)⌉).toNat).length =
      (⌈(1 - d) * ((simplePool g).length : ℚ)⌉).toNat ∧
    (simpleFixedVariables g shuffle
        (⌈(1 - d) * ((simplePool g).length : ℚ)⌉).toNat).Nodup ∧
    (∀ v ∈ simpleFixedVariables g shuffle
        (⌈(1 - d) * ((simplePool g).length : ℚ)⌉).toNat, v ∈ simplePool g) ∧
    (d = 1 → simpleFixedVariables g shuffle
        (⌈(1 - d) * ((simplePool g).length : ℚ)⌉).toNat = []) ∧
    ∃ m', SimpleGenerate g r shuffle d = some m' := by
  have hL : (shuffle (simplePool g)).length = (simplePool g).length :=
    hsh.length_eq
  have hceil : ⌈(1 - d) * ((simplePool g).length : ℚ)⌉ ≤
      ((simplePool g).length : ℤ) :=
    ceil_mul_le (1 - d) (simplePool g).length (by linarith)
  have htoNat : (⌈(1 - d) * ((simplePool g).length : ℚ)⌉).toNat ≤
      (simplePool g).length := Int.toNat_le.mpr hceil
  have hlen' : (simpleFixedVariables g shuffle
      (⌈(1 - d) * ((simplePool g).length : ℚ)⌉).toNat).length =
      (⌈(1 - d) * ((simplePool g).length : ℚ)⌉).toNat := by
    rw [simpleFixedVariables]
    rw [List.length_append, List.length_take, List.length_replicate, hL]
    omega
  have hsub : ∀ v ∈ simpleFixedVariables g shuffle
      (⌈(1 - d) * ((simplePool g).length : ℚ)⌉).toNat, v ∈ simplePool g := by
    intro v hv
    rw [simpleFixedVariables] at hv
    rcases List.mem_append.mp hv with h2 | h2
    · exact hsh.mem_iff.mp ((List.take_sublist _ _).subset h2)
    · rw [show (⌈(1 - d) * ((simplePool g).length : ℚ)⌉).toNat -
          (shuffle (simplePool g)).length = 0 by omega] at h2
      simp at h2
  refine ⟨hlen', ?_, hsub, ?_, ?_⟩
  · rw [simpleFixedVariables]
    rw [show (⌈(1 - d) * ((simplePool g).length : ℚ)⌉).toNat -
        (shuffle (simplePool g)).length = 0 by omega]
    rw [List.replicate_zero, List.append_nil]
    exact (List.take_sublist _ _).nodup
      (hsh.nodup_iff.mpr (simplePool_nodup m f g h))
  · intro hd
    rw [simpleFixedVariables]
    rw [show ⌈(1 - d) * ((simplePool g).length : ℚ)⌉ = 0 by rw [hd]; norm_num]
    simp
  · rw [SimpleGenerate, simpleGenerateT]
    rw [if_neg (by
      rw [hL]
      exact not_lt.mpr (ceil_mul_nonneg (1 - d) _ (by linarith)))]
    refine ⟨_, FixGivenPosition_eq_some r _ g.model_proto ?_ ?_⟩
    · rw [(init_spec m f g h).1]; exact hlen
    · intro v hv
      rw [hL] at hv
      exact simplePool_lt m f g h v (hsub v hv)

/-- C5 witness: the two-variable model, identity shuffle, difficulty 1/2. -/
theorem c5_witness :
    (simpleFixedVariables exGenPair (fun l => l)
        (⌈(1 - (1/2 : ℚ)) * ((simplePool exGenPair).length : ℚ)⌉).toNat).length =
      (⌈(1 - (1/2 : ℚ)) * ((simplePool exGenPair).length : ℚ)⌉).toNat ∧
    (simpleFixedVariables exGenPair (fun l => l)
        (⌈(1 - (1/2 : ℚ)) * ((simplePool exGenPair).length : ℚ)⌉).toNat).Nodup ∧
    (∀ v ∈ simpleFixedVariables exGenPair (fun l => l)
        (⌈(1 - (1/2 : ℚ)) * ((simplePool exGenPair).length : ℚ)⌉).toNat,
      v ∈ simplePool exGenPair) ∧
    ((1/2 : ℚ) = 1 → simpleFixedVariables exGenPair (fun l => l)
        (⌈(1 - (1/2 : ℚ)) * ((simplePool exGenPair).length : ℚ)⌉).toNat = []) ∧
    ∃ m', SimpleGenerate exGenPair ⟨[1, 1]⟩ (fun l => l) (1/2) = some m' :=
  c5_simple_generator exModelPair false exGenPair (by decide) ⟨[1, 1]⟩ (by decide)
    (fun l => l) (List.Perm.refl _) (1/2) (by norm_num) (by norm_num)

/-- C8: every seeded `Generate` (all three variants) and `FixGivenPosition`
are deterministic pure functions of their arguments — two sequential calls on
identical inputs give identical results — and the engine-derived oracles are
valid (the modelled shuffle permutes its input, the modelled uniform draw is
in range), so each seeded call is an instance of the oracle semantics with
the oracle fixed by the seed alone. -/
theorem c8_generate_deterministic (g : NeighborhoodGenerator)
    (r : CpSolverResponse) (seed : Nat) (d : ℚ) :
    (generateTwice g r seed d).1.1 = (generateTwice g r seed d).1.2 ∧
    (generateTwice g r seed d).2.1.1 = (generateTwice g r seed d).2.1.2 ∧
    (generateTwice g r seed d).2.2.1 = (generateTwice g r seed d).2.2.2 ∧
    (∀ toFix m2, (fixTwice r toFix m2).1 = (fixTwice r toFix m2).2) ∧
    (∀ i l, List.Perm (seededShuffle seed i l) l) ∧
    (∀ i k, 0 < k → seededPick seed i k < k) ∧
    SimpleGenerateSeeded g r seed d =
      SimpleGenerate g r (seededShuffle seed 0) d ∧
    VarGraphGenerateSeeded g r seed d =
      VarGraphGenerate g r (seededPick seed 0 (numActiveVars g))
        (fun i => seededShuffle seed (i + 1)) d ∧
    CtGraphGenerateSeeded g r seed d =
      CtGraphGenerate g r (seededPick seed 0 g.constraint_to_var.length)
        (fun i k => seededPick seed (2 * i + 1) k)
        (fun i l => seededShuffle seed (2 * i + 2) l) d := by
  refine ⟨rfl, rfl, rfl, fun toFix m2 => rfl, ?_, ?_, rfl, rfl, rfl⟩
  · intro i l
    rw [seededShuffle]
    exact List.rotate_perm l _
  · intro i k hk
    rw [seededPick]
    exact Nat.mod_lt _ hk

/-- C8 witness: the engine-derived oracles at seed 42 on concrete inputs. -/
theorem c8_witness :
    List.Perm (seededShuffle 42 0 [0, 1, 2]) [0, 1, 2] ∧
    seededPick 42 1 3 < 3 ∧
    (fixTwice ⟨[0]⟩ [0] exModelSingle).1 = (fixTwice ⟨[0]⟩ [0] exModelSingle).2 :=
  ⟨(c8_generate_deterministic exGenSingle ⟨[0]⟩ 42 1).2.2.2.2.1 0 [0, 1, 2],
   (c8_generate_deterministic exGenSingle ⟨[0]⟩ 42 1).2.2.2.2.2.1 1 3 (by decide),
   (c8_generate_deterministic exGenSingle ⟨[0]⟩ 42 1).2.2.2.1 [0] exModelSingle⟩

end CpModelLns

namespace CpModelLns

/-- C9: under focus, the variable-graph walk starts at a decision variable,
every relaxed variable satisfies `IsActive`, the relaxed set is contained in
the decision-variable set, and the fixed set is exactly the decision set
minus the relaxed set. -/
theorem c9_focus_relaxed_active (m : CpModelProto) (f : Bool)
    (g : NeighborhoodGenerator) (h : NeighborhoodGenerator.init m f = some g)
    (hf : g.focus_on_decision_variables = true)
    (fc : Nat) (hfc : fc < g.decision_variables.length)
    (shuf : Nat → List Nat → List Nat) (hsh : ∀ i l, List.Perm (shuf i l) l)
    (t : Nat) :
    varGraphFirst g fc ∈ g.decision_variables ∧
    (∀ x ∈ (varGraphSelection g fc shuf t).relaxed, g.IsActive x = true) ∧
    (∀ x ∈ (varGraphSelection g fc shuf t).relaxed, x ∈ g.decision_variables) ∧
    fixedVariablesFor g
        (relaxedMask m.variables_.length
          (varGraphSelection g fc shuf t).relaxed) =
      g.decision_variables.filter
        (fun v => decide (v ∉ (varGraphSelection g fc shuf t).relaxed)) := by
  have hm : g.model_proto = m := (init_spec m f g h).1
  have hfirst : varGraphFirst g fc ∈ g.decision_variables := by
    rw [varGraphFirst, if_pos hf]
    exact getD_mem_of_lt _ _ _ hfc
  have hact : ∀ x ∈ (varGraphSelection g fc shuf t).relaxed,
      g.IsActive x = true := by
    intro x hx
    rcases (varGraphSelection_inv g fc shuf t hsh x hx).2 with h1 | h1
    · rw [h1]
      exact (init_IsActive_iff m f g h hf _).mpr hfirst
    · exact h1.1
  have hdec : ∀ x ∈ (varGraphSelection g fc shuf t).relaxed,
      x ∈ g.decision_variables :=
    fun x hx => (init_IsActive_iff m f g h hf x).mp (hact x hx)
  refine ⟨hfirst, hact, hdec, ?_⟩
  rw [fixedVariablesFor, if_pos hf]
  apply List.filter_congr
  intro v hv
  have hvlt : v < m.variables_.length := by
    have h2 := init_dec_lt m f g h v hv
    rwa [hm] at h2
  by_cases hmem : v ∈ (varGraphSelection g fc shuf t).relaxed
  · have hgd : (relaxedMask m.variables_.length
        (varGraphSelection g fc shuf t).relaxed).getD v false = true :=
      (relaxedMask_getD _ _ v).mpr ⟨hmem, hvlt⟩
    rw [hgd]
    simp [hmem]
  · have hgd : (relaxedMask m.variables_.length
        (varGraphSelection g fc shuf t).relaxed).getD v false = false := by
      cases hb : (relaxedMask m.variables_.length
          (varGraphSelection g fc shuf t).relaxed).getD v false with
      | false => rfl
      | true => exact absurd ((relaxedMask_getD _ _ v).mp hb).1 hmem
    rw [hgd]
    simp [hmem]

/-- C9 witness: the focus model with decision set `{0, 1}`, start draw 0. -/
theorem c9_witness :
    varGraphFirst exGenFocus 0 ∈ exGenFocus.decision_variables ∧
    (∀ x ∈ (varGraphSelection exGenFocus 0 (fun i l => l) 1).relaxed,
      exGenFocus.IsActive x = true) ∧
    (∀ x ∈ (varGraphSelection exGenFocus 0 (fun i l => l) 1).relaxed,
      x ∈ exGenFocus.decision_variables) ∧
    fixedVariablesFor exGenFocus
        (relaxedMask exModelFocus.variables_.length
          (varGraphSelection exGenFocus 0 (fun i l => l) 1).relaxed) =
      exGenFocus.decision_variables.filter
        (fun v => decide
          (v ∉ (varGraphSelection exGenFocus 0 (fun i l => l) 1).relaxed)) :=
  c9_focus_relaxed_active exModelFocus true exGenFocus (by decide) (by decide)
    0 (by decide) (fun i l => l) (fun i l => List.Perm.refl l) 1

end CpModelLns

namespace CpModelLns

/-- C6 (amended): for `0 < target_size < num_active_vars` the variable-graph
generator returns `RelaxGivenVariables` of its walk's relaxed list, whose
members are all reachable from the chosen start variable; its size is at most
`target_size` whenever `target_size ≥ 2` and at most `target_size + 1` in
general (at `target_size = 1` it can overshoot by one).  The constraint-graph
generator returns `RelaxGivenVariables` of its visited mask, whose active
(relaxed) variables are all reachable from the start constraint and number at
most `target_size`. -/
theorem c6_graph_walk_amended (m : CpModelProto) (f : Bool)
    (g : NeighborhoodGenerator) (h : NeighborhoodGenerator.init m f = some g)
    (fc sc : Nat) (hsc : sc < g.constraint_to_var.length)
    (shuf shuf2 : Nat → List Nat → List Nat) (pick : Nat → Nat → Nat)
    (hsh : ∀ i l, List.Perm (shuf i l) l)
    (hsh2 : ∀ i l, List.Perm (shuf2 i l) l)
    (hpick : ∀ s k, 0 < k → pick s k < k)
    (d : ℚ) (t : Nat) (hteq : ⌈d * (numActiveVars g : ℚ)⌉ = (t : ℤ))
    (ht1 : 0 < t) (ht2 : t < numActiveVars g) :
    (∀ r, VarGraphGenerate g r fc shuf d =
      g.RelaxGivenVariables r (relaxedMask g.model_proto.variables_.length
        (varGraphSelection g fc shuf t).relaxed)) ∧
    (∀ x ∈ (varGraphSelection g fc shuf t).relaxed,
      VarConnected g (varGraphFirst g fc) x) ∧
    (2 ≤ t → (varGraphSelection g fc shuf t).relaxed.length ≤ t) ∧
    (varGraphSelection g fc shuf t).relaxed.length ≤ t + 1 ∧
    (∀ r w', ctGraphSelection g sc pick shuf2 t = some w' →
      CtGraphGenerate g r sc pick shuf2 d =
        g.RelaxGivenVariables r w'.visited) ∧
    (∀ w', ctGraphSelection g sc pick shuf2 t = some w' →
      (activeVisited g w'.visited).card ≤ t ∧
      (∀ v ∈ activeVisited g w'.visited, CtReachesVar g sc v)) := by
  have hne : ¬ ((t : ℤ) = (numActiveVars g : ℤ)) := by
    intro he
    exact absurd (by exact_mod_cast he) (Nat.ne_of_lt ht2)
  have hle : ¬ ((t : ℤ) ≤ 0) := by omega
  have hctne : ¬ (g.constraint_to_var.isEmpty = true) := by
    intro he
    rw [List.isEmpty_iff] at he
    rw [he] at hsc
    simp at hsc
  refine ⟨?_, fun x hx => (varGraphSelection_inv g fc shuf t hsh x hx).1,
    varGraphSelection_rel_len_lt g fc shuf t,
    varGraphSelection_rel_len_le g fc shuf t ht1, ?_, ?_⟩
  · intro r
    rw [VarGraphGenerate, hteq, varGraphGenerateT, if_neg hne, if_neg hle,
      Int.toNat_natCast]
  · intro r w' hw'
    rw [CtGraphGenerate, hteq, ctGraphGenerateT, if_neg hne, if_neg hle,
      if_neg hctne, Int.toNat_natCast, hw']
  · intro w' hw'
    have hinv0 : CtInv g sc t (ctGraphStart g sc) := by
      refine ⟨?_, ?_, by simp [ctGraphStart], ?_, Nat.zero_le t⟩
      · intro ct hct
        rw [ctGraphStart] at hct
        simp at hct
        rw [hct]
        exact ⟨hsc, CtConnected.refl⟩
      · intro v hv
        rw [ctGraphStart] at hv
        simp only [] at hv
        rw [replicate_false_getD] at hv
        exact absurd hv (by simp)
      · rw [ctGraphStart]
        simp only []
        rw [activeVisited_replicate]
        rfl
    obtain ⟨w'', hsome, hinv⟩ := ctGraphLoop_inv g sc t pick shuf2 hpick hsh2
      (init_vtc_bound m f g h) (init_ctv_bound m f g h)
      (g.constraint_to_var.length + 1) 0 (ctGraphStart g sc) hinv0
    rw [ctGraphSelection] at hw'
    rw [hw'] at hsome
    have hww : w' = w'' := Option.some.inj hsome
    subst hww
    constructor
    · rw [hinv.2.2.2.1]
      exact hinv.2.2.2.2
    · intro v hv
      rw [activeVisited, Finset.mem_filter] at hv
      exact hinv.2.1 v hv.2.1

/-- C6 counterexample: on the two-variable model with the single constraint
`{0, 1}`, difficulty 1/2 gives `target_size = 1` (with `num_active_vars = 2`),
yet a run of the variable-graph walk starting at variable 0 relaxes both
variables: the relaxed set's size exceeds `target_size`. -/
theorem c6_counterexample :
    NeighborhoodGenerator.init exModelPair false = some exGenPair ∧
    (⌈(1/2 : ℚ) * ((numActiveVars exGenPair : ℕ) : ℚ)⌉ : ℤ) = 1 ∧
    0 < numActiveVars exGenPair ∧ 1 < numActiveVars exGenPair ∧
    (∀ i l, List.Perm ((fun (i : Nat) (l : List Nat) => l) i l) l) ∧
    1 < (varGraphSelection exGenPair 0 (fun i l => l) 1).relaxed.length := by
  refine ⟨by decide, ?_, by decide, by decide, fun i l => List.Perm.refl l,
    by decide⟩
  rw [show numActiveVars exGenPair = 2 from rfl]
  norm_num

end CpModelLns

namespace CpModelLns

/-- C6 witness: the five-variable scenario model at difficulty 2/5
(`target_size = 2`). -/
theorem c6_witness :
    (∀ r, VarGraphGenerate (exGenC7 ⟨[0, 10]⟩ ⟨[0, 10]⟩ ⟨[0, 10]⟩ ⟨[0, 10]⟩
        ⟨[0, 10]⟩) r 0 (fun i l => l) (2/5) =
      (exGenC7 ⟨[0, 10]⟩ ⟨[0, 10]⟩ ⟨[0, 10]⟩ ⟨[0, 10]⟩
        ⟨[0, 10]⟩).RelaxGivenVariables r
        (relaxedMask (exGenC7 ⟨[0, 10]⟩ ⟨[0, 10]⟩ ⟨[0, 10]⟩ ⟨[0, 10]⟩
          ⟨[0, 10]⟩).model_proto.variables_.length
          (varGraphSelection (exGenC7 ⟨[0, 10]⟩ ⟨[0, 10]⟩ ⟨[0, 10]⟩ ⟨[0, 10]⟩
            ⟨[0, 10]⟩) 0 (fun i l => l) 2).relaxed)) ∧
    (∀ x ∈ (varGraphSelection (exGenC7 ⟨[0, 10]⟩ ⟨[0, 10]⟩ ⟨[0, 10]⟩ ⟨[0, 10]⟩
        ⟨[0, 10]⟩) 0 (fun i l => l) 2).relaxed,
      VarConnected (exGenC7 ⟨[0, 10]⟩ ⟨[0, 10]⟩ ⟨[0, 10]⟩ ⟨[0, 10]⟩ ⟨[0, 10]⟩)
        (varGraphFirst (exGenC7 ⟨[0, 10]⟩ ⟨[0, 10]⟩ ⟨[0, 10]⟩ ⟨[0, 10]⟩
          ⟨[0, 10]⟩) 0) x) ∧
    (2 ≤ 2 → (varGraphSelection (exGenC7 ⟨[0, 10]⟩ ⟨[0, 10]⟩ ⟨[0, 10]⟩ ⟨[0, 10]⟩
        ⟨[0, 10]⟩) 0 (fun i l => l) 2).relaxed.length ≤ 2) ∧
    (varGraphSelection (exGenC7 ⟨[0, 10]⟩ ⟨[0, 10]⟩ ⟨[0, 10]⟩ ⟨[0, 10]⟩
        ⟨[0, 10]⟩) 0 (fun i l => l) 2).relaxed.length ≤ 2 + 1 ∧
    (∀ r w', ctGraphSelection (exGenC7 ⟨[0, 10]⟩ ⟨[0, 10]⟩ ⟨[0, 10]⟩ ⟨[0, 10]⟩
        ⟨[0, 10]⟩) 0 (fun s k => 0) (fun i l => l) 2 = some w' →
      CtGraphGenerate (exGenC7 ⟨[0, 10]⟩ ⟨[0, 10]⟩ ⟨[0, 10]⟩ ⟨[0, 10]⟩
          ⟨[0, 10]⟩) r 0 (fun s k => 0) (fun i l => l) (2/5) =
        (exGenC7 ⟨[0, 10]⟩ ⟨[0, 10]⟩ ⟨[0, 10]⟩ ⟨[0, 10]⟩
          ⟨[0, 10]⟩).RelaxGivenVariables r w'.visited) ∧
    (∀ w', ctGraphSelection (exGenC7 ⟨[0, 10]⟩ ⟨[0, 10]⟩ ⟨[0, 10]⟩ ⟨[0, 10]⟩
        ⟨[0, 10]⟩) 0 (fun s k => 0) (fun i l => l) 2 = some w' →
      (activeVisited (exGenC7 ⟨[0, 10]⟩ ⟨[0, 10]⟩ ⟨[0, 10]⟩ ⟨[0, 10]⟩ ⟨[0, 10]⟩)
        w'.visited).card ≤ 2 ∧
      (∀ v ∈ activeVisited (exGenC7 ⟨[0, 10]⟩ ⟨[0, 10]⟩ ⟨[0, 10]⟩ ⟨[0, 10]⟩
          ⟨[0, 10]⟩) w'.visited,
        CtReachesVar (exGenC7 ⟨[0, 10]⟩ ⟨[0, 10]⟩ ⟨[0, 10]⟩ ⟨[0, 10]⟩ ⟨[0, 10]⟩)
          0 v)) :=
  c6_graph_walk_amended
    (exModelC7 ⟨[0, 10]⟩ ⟨[0, 10]⟩ ⟨[0, 10]⟩ ⟨[0, 10]⟩ ⟨[0, 10]⟩) false
    (exGenC7 ⟨[0, 10]⟩ ⟨[0, 10]⟩ ⟨[0, 10]⟩ ⟨[0, 10]⟩ ⟨[0, 10]⟩) (by decide)
    0 0 (by decide) (fun i l => l) (fun i l => l) (fun s k => 0)
    (fun i l => List.Perm.refl l) (fun i l => List.Perm.refl l)
    (fun s k hk => hk) (2/5) 2
    (by rw [show numActiveVars (exGenC7 ⟨[0, 10]⟩ ⟨[0, 10]⟩ ⟨[0, 10]⟩ ⟨[0, 10]⟩
        ⟨[0, 10]⟩) = 5 from rfl]; norm_num)
    (by decide) (by decide)

/-- C10: the constraint-graph generator with a non-degenerate target size
(`0 < target_size < num_active_vars`) errors out (the empty-range
start-constraint draw, modelled as `none`) on a model with no constraints;
with at least one constraint, a valid start draw and valid oracles, it always
produces a restricted model — every constraint index taken from the queue
passes the range check and the run reaches `RelaxGivenVariables`. -/
theorem c10_constraint_graph_totality (m : CpModelProto) (f : Bool)
    (g : NeighborhoodGenerator) (h : NeighborhoodGenerator.init m f = some g)
    (r : CpSolverResponse) (sc : Nat) (pick : Nat → Nat → Nat)
    (shuf : Nat → List Nat → List Nat) (d : ℚ) (t : Nat)
    (hteq : ⌈d * (numActiveVars g : ℚ)⌉ = (t : ℤ)) (ht1 : 0 < t)
    (ht2 : t < numActiveVars g) :
    (m.constraints = [] → CtGraphGenerate g r sc pick shuf d = none) ∧
    (m.constraints ≠ [] → sc < g.constraint_to_var.length →
      r.solution.length = m.variables_.length →
      (∀ s k, 0 < k → pick s k < k) → (∀ i l, List.Perm (shuf i l) l) →
      ∃ m', CtGraphGenerate g r sc pick shuf d = some m') := by
  have hne : ¬ ((t : ℤ) = (numActiveVars g : ℤ)) := by
    intro he
    exact absurd (by exact_mod_cast he) (Nat.ne_of_lt ht2)
  have hle : ¬ ((t : ℤ) ≤ 0) := by omega
  have hctv : g.constraint_to_var = m.constraints.map (fun c => c.vars) :=
    (init_spec m f g h).2.1
  constructor
  · intro hnil
    rw [CtGraphGenerate, hteq, ctGraphGenerateT, if_neg hne, if_neg hle,
      if_pos (by rw [hctv, hnil]; rfl)]
  · intro hnnil hsc hlen hpick hsh
    have hctne : ¬ (g.constraint_to_var.isEmpty = true) := by
      intro he
      rw [List.isEmpty_iff] at he
      rw [he] at hsc
      simp at hsc
    have hinv0 : CtInv g sc t (ctGraphStart g sc) := by
      refine ⟨?_, ?_, by simp [ctGraphStart], ?_, Nat.zero_le t⟩
      · intro ct hct
        rw [ctGraphStart] at hct
        simp at hct
        rw [hct]
        exact ⟨hsc, CtConnected.refl⟩
      · intro v hv
        rw [ctGraphStart] at hv
        simp only [] at hv
        rw [replicate_false_getD] at hv
        exact absurd hv (by simp)
      · rw [ctGraphStart]
        simp only []
        rw [activeVisited_replicate]
        rfl
    obtain ⟨w', hsome, hinv⟩ := ctGraphLoop_inv g sc t pick shuf hpick hsh
      (init_vtc_bound m f g h) (init_ctv_bound m f g h)
      (g.constraint_to_var.length + 1) 0 (ctGraphStart g sc) hinv0
    rw [CtGraphGenerate, hteq, ctGraphGenerateT, if_neg hne, if_neg hle,
      if_neg hctne, Int.toNat_natCast]
    have hsel : ctGraphSelection g sc pick shuf t = some w' := hsome
    rw [hsel]
    exact ⟨_, RelaxGivenVariables_some m f g h r hlen w'.visited⟩

/-- C10 witness: part one on the constraint-free two-variable model, part two
on the two-variable model with one constraint, both at `target_size = 1`. -/
theorem c10_witness :
    (exModelTwoFree.constraints = [] →
      CtGraphGenerate exGenTwoFree ⟨[1, 1]⟩ 0 (fun s k => 0) (fun i l => l)
        (1/2) = none) ∧
    (exModelPair.constraints ≠ [] →
      0 < exGenPair.constraint_to_var.length →
      (⟨[1, 1]⟩ : CpSolverResponse).solution.length =
        exModelPair.variables_.length →
      (∀ s k, 0 < k → (fun (s k : Nat) => 0) s k < k) →
      (∀ i l, List.Perm ((fun (i : Nat) (l : List Nat) => l) i l) l) →
      ∃ m', CtGraphGenerate exGenPair ⟨[1, 1]⟩ 0 (fun s k => 0) (fun i l => l)
        (1/2) = some m') :=
  ⟨(c10_constraint_graph_totality exModelTwoFree false exGenTwoFree (by decide)
      ⟨[1, 1]⟩ 0 (fun s k => 0) (fun i l => l) (1/2) 1
      (by rw [show numActiveVars exGenTwoFree = 2 from rfl]; norm_num)
      (by decide) (by decide)).1,
   (c10_constraint_graph_totality exModelPair false exGenPair (by decide)
      ⟨[1, 1]⟩ 0 (fun s k => 0) (fun i l => l) (1/2) 1
      (by rw [show numActiveVars exGenPair = 2 from rfl]; norm_num)
      (by decide) (by decide)).2⟩

end CpModelLns

namespace CpModelLns

set_option maxHeartbeats 1000000 in
/-- C7: on the five-variable scenario model with incumbent `[1,2,3,4,5]`,
focus off and difficulty 2/5 (`target_size = 2`), every run of the
variable-graph generator whose random start draw is variable 0 relaxes
exactly `{0, 1}` and returns the model that fixes variables `2, 3, 4` to
`3, 4, 5` with single-point domains and hints all five variables at the
incumbent values. -/
theorem c7_scenario (a b c d e : IntegerVariableProto)
    (shuf : Nat → List Nat → List Nat)
    (hs : ∀ i l, List.Perm (shuf i l) l) :
    NeighborhoodGenerator.init (exModelC7 a b c d e) false =
      some (exGenC7 a b c d e) ∧
    (varGraphSelection (exGenC7 a b c d e) 0 shuf 2).relaxed = [0, 1] ∧
    VarGraphGenerate (exGenC7 a b c d e) ⟨[1, 2, 3, 4, 5]⟩ 0 shuf (2/5) =
      some (exOutC7 a b) := by
  have h1 : shuf 0 [1] = [1] := List.perm_singleton.mp (hs 0 [1])
  have hsel : varGraphSelection (exGenC7 a b c d e) 0 shuf 2 =
      ⟨[true, true, false, false, false], [0, 1], [0, 1]⟩ := by
    change
      (if 2 ≤ (appendVars (exGenC7 a b c d e) 2 (shuf 0 [1]) [0] [0]).2.length then
        (⟨[true, true, false, false, false],
          (appendVars (exGenC7 a b c d e) 2 (shuf 0 [1]) [0] [0]).1,
          (appendVars (exGenC7 a b c d e) 2 (shuf 0 [1]) [0] [0]).2⟩ : VarWalk)
      else varGraphLoop (exGenC7 a b c d e) 2 shuf 4 1
        ⟨[true, true, false, false, false],
          (appendVars (exGenC7 a b c d e) 2 (shuf 0 [1]) [0] [0]).1,
          (appendVars (exGenC7 a b c d e) 2 (shuf 0 [1]) [0] [0]).2⟩) =
      ⟨[true, true, false, false, false], [0, 1], [0, 1]⟩
    rw [h1]
    rfl
  refine ⟨rfl, by rw [hsel], ?_⟩
  have h2 : (⌈(2/5 : ℚ) * ((numActiveVars (exGenC7 a b c d e) : ℕ) : ℚ)⌉ : ℤ) =
      2 := by
    rw [show numActiveVars (exGenC7 a b c d e) = 5 from rfl]
    norm_num
  unfold VarGraphGenerate
  rw [h2]
  have hne : ¬ ((2 : ℤ) = ((numActiveVars (exGenC7 a b c d e) : ℕ) : ℤ)) := by
    rw [show numActiveVars (exGenC7 a b c d e) = 5 from rfl]
    decide
  rw [varGraphGenerateT, if_neg hne, if_neg (by decide : ¬ ((2 : ℤ) ≤ 0))]
  rw [show ((2 : ℤ).toNat) = 2 from rfl]
  rw [hsel]
  rfl

/-- C7 witness: the scenario with all domains `[0, 10]` and the identity
shuffle. -/
theorem c7_witness :
    NeighborhoodGenerator.init
        (exModelC7 ⟨[0, 10]⟩ ⟨[0, 10]⟩ ⟨[0, 10]⟩ ⟨[0, 10]⟩ ⟨[0, 10]⟩) false =
      some (exGenC7 ⟨[0, 10]⟩ ⟨[0, 10]⟩ ⟨[0, 10]⟩ ⟨[0, 10]⟩ ⟨[0, 10]⟩) ∧
    (varGraphSelection (exGenC7 ⟨[0, 10]⟩ ⟨[0, 10]⟩ ⟨[0, 10]⟩ ⟨[0, 10]⟩
      ⟨[0, 10]⟩) 0 (fun i l => l) 2).relaxed = [0, 1] ∧
    VarGraphGenerate (exGenC7 ⟨[0, 10]⟩ ⟨[0, 10]⟩ ⟨[0, 10]⟩ ⟨[0, 10]⟩ ⟨[0, 10]⟩)
        ⟨[1, 2, 3, 4, 5]⟩ 0 (fun i l => l) (2/5) =
      some (exOutC7 ⟨[0, 10]⟩ ⟨[0, 10]⟩) :=
  c7_scenario ⟨[0, 10]⟩ ⟨[0, 10]⟩ ⟨[0, 10]⟩ ⟨[0, 10]⟩ ⟨[0, 10]⟩ (fun i l => l)
    (fun i l => List.Perm.refl l)

end CpModelLns

namespace CpModelLns

/-- C1 witness: the no-focus two-variable generator with the mask relaxing
variable 0 only. -/
theorem c1_witness :
    (∀ v ∈ relaxedIndices exGenPair [true, false],
      v ∉ fixedVariablesFor exGenPair [true, false]) ∧
    (exGenPair.focus_on_decision_variables = false →
      (relaxedIndices exGenPair [true, false]).length +
        (fixedVariablesFor exGenPair [true, false]).length =
        exModelPair.variables_.length) ∧
    (exGenPair.focus_on_decision_variables = true →
      (exGenPair.decision_variables.filter
          (fun v => ([true, false] : List Bool).getD v false)).length +
        (fixedVariablesFor exGenPair [true, false]).length =
        exGenPair.decision_variables.length) :=
  c1_partition_amended exModelPair false exGenPair (by decide) [true, false]

end CpModelLns
